import Mathlib

set_option autoImplicit false

namespace Waylog

/-! Shallow embedding of the waylog-cli normalization-and-incremental-sync
engine.  Rust strings are modelled as lists of Unicode characters
(`Str := List Char`); where the Rust code works on UTF-8 bytes (byte
lengths, byte slicing, the fixed-size read window of the frontmatter
scanner) the byte structure is recovered through `Char.utf8Size`.
Fallible Rust code returns `Except` or `Option`; a reachable Rust panic is
modelled as `Option.none` of the enclosing operation. -/

abbrev Str := List Char

/-- Total UTF-8 byte length of a string, as Rust `str::len`. -/
def utf8Len (s : Str) : Nat := (s.map Char.utf8Size).sum

/-- Rust `char::is_whitespace` on the ASCII fragment (the only whitespace
appearing in any statement or witness below). -/
def isWs (c : Char) : Bool := c.isWhitespace

/-- Rust `str::trim`: drop whitespace from both ends. -/
def trimStr (s : Str) : Str :=
  ((s.dropWhile isWs).reverse.dropWhile isWs).reverse

/-- ASCII uppercase letter test (code points 65 to 90). -/
def upperAscii (c : Char) : Bool := decide (65 ≤ c.toNat) && decide (c.toNat ≤ 90)

/-- ASCII lowercase letter test (code points 97 to 122). -/
def lowerAscii (c : Char) : Bool := decide (97 ≤ c.toNat) && decide (c.toNat ≤ 122)

/-- ASCII digit test (code points 48 to 57). -/
def digitAscii (c : Char) : Bool := decide (48 ≤ c.toNat) && decide (c.toNat ≤ 57)

/-- Rust `char::is_alphanumeric`, modelled on the ASCII fragment over which
every statement and witness below ranges (the Unicode tables of the real
predicate are out of scope; all spec examples are ASCII). -/
def is_alphanumeric (c : Char) : Bool := upperAscii c || lowerAscii c || digitAscii c

/-- Rust `char::to_ascii_lowercase`: add 32 to an ASCII uppercase letter,
leave every other character unchanged. -/
def to_ascii_lowercase (c : Char) : Char :=
  if h : 65 ≤ c.toNat ∧ c.toNat ≤ 90 then
    Char.ofNatAux (c.toNat + 32) (Or.inl (by omega))
  else c

/-- One step of the hyphen-collapsing loop of `slugify`
(src/utils/string.rs lines 21 to 31): the Bool is the `last_was_hyphen`
flag, the list is the `clean_slug` accumulator. -/
def collapseStep : Bool × Str → Char → Bool × Str
  | (lastHyp, acc), c =>
    if c = '-' then
      match lastHyp with
      | true => (true, acc)
      | false => (true, acc ++ ['-'])
    else (false, acc ++ [c])

/-- The hyphen-collapsing loop of `slugify`, started with
`last_was_hyphen = true` so that leading hyphens are trimmed. -/
def collapseHyphens (s : Str) : Str := (s.foldl collapseStep (true, [])).2

theorem collapseStep_hyphen_true (acc : Str) :
    collapseStep (true, acc) '-' = (true, acc) := rfl

theorem collapseStep_hyphen_false (acc : Str) :
    collapseStep (false, acc) '-' = (true, acc ++ ['-']) := rfl

theorem collapseStep_other (b : Bool) (acc : Str) (c : Char) (hc : c ≠ '-') :
    collapseStep (b, acc) c = (false, acc ++ [c]) := by
  simp [collapseStep, hc]

/-- Rust `if clean_slug.ends_with(a hyphen) { clean_slug.pop(); }`. -/
def trimTrailingHyphen (s : Str) : Str :=
  if s.getLast? = some '-' then s.dropLast else s

/-- src/utils/string.rs `slugify`: first 50 characters, alphanumerics
ASCII-lowercased, everything else mapped to a hyphen, hyphen runs
collapsed, edge hyphens trimmed, empty result replaced by the fixed
placeholder. -/
def slugify (text : Str) : Str :=
  let truncated := text.take 50
  let slug := truncated.map
    (fun c => if is_alphanumeric c then to_ascii_lowercase c else '-')
  let clean := trimTrailingHyphen (collapseHyphens slug)
  if clean = [] then ("new-chat").data else clean

/-- Bool test: the string starts with a hyphen. -/
def startsWithHyphen (s : Str) : Bool := s.head? == some '-'

/-- Bool test: the string ends with a hyphen. -/
def endsWithHyphen (s : Str) : Bool := s.getLast? == some '-'

/-- Bool test: the string contains two adjacent hyphens. -/
def hasDoubleHyphen : Str → Bool
  | c1 :: c2 :: r => (decide (c1 = '-') && decide (c2 = '-')) || hasDoubleHyphen (c2 :: r)
  | _ => false

/-- Character classes allowed in a slug: a hyphen or a non-uppercase
alphanumeric character. -/
def slugChar (c : Char) : Bool := decide (c = '-') || (is_alphanumeric c && !upperAscii c)

theorem toNat_ofNatAux (n : Nat) (h : Nat.isValidChar n) :
    (Char.ofNatAux n h).toNat = n := rfl

theorem is_alphanumeric_iff (c : Char) : is_alphanumeric c = true ↔
    (65 ≤ c.toNat ∧ c.toNat ≤ 90) ∨ (97 ≤ c.toNat ∧ c.toNat ≤ 122) ∨
    (48 ≤ c.toNat ∧ c.toNat ≤ 57) := by
  simp [is_alphanumeric, upperAscii, lowerAscii, digitAscii, or_assoc]

theorem slugChar_true_of_lower_or_digit (d : Char)
    (h : (97 ≤ d.toNat ∧ d.toNat ≤ 122) ∨ (48 ≤ d.toNat ∧ d.toNat ≤ 57)) :
    slugChar d = true := by
  have hna : is_alphanumeric d = true := (is_alphanumeric_iff d).mpr (Or.inr h)
  have hnu : upperAscii d = false := by
    simp only [upperAscii, Bool.and_eq_false_iff, decide_eq_false_iff_not,
      not_le]
    rcases h with ⟨h1, h2⟩ | ⟨h1, h2⟩
    · right; omega
    · left; omega
  simp [slugChar, hna, hnu]

theorem slugChar_of_mapped (c : Char) :
    slugChar (if is_alphanumeric c then to_ascii_lowercase c else '-') = true := by
  by_cases h : is_alphanumeric c = true
  · rw [if_pos h]
    rw [to_ascii_lowercase]
    by_cases hu : 65 ≤ c.toNat ∧ c.toNat ≤ 90
    · rw [dif_pos hu]
      apply slugChar_true_of_lower_or_digit
      left
      rw [toNat_ofNatAux]
      omega
    · rw [dif_neg hu]
      rcases (is_alphanumeric_iff c).mp h with h1 | h2
      · exact absurd h1 hu
      · exact slugChar_true_of_lower_or_digit c h2
  · rw [if_neg h]
    simp [slugChar]

theorem startsWithHyphen_append_single (s : Str) (c : Char)
    (hs : startsWithHyphen s = false) (hc : s = [] → c ≠ '-') :
    startsWithHyphen (s ++ [c]) = false := by
  cases s with
  | nil => simpa [startsWithHyphen] using hc rfl
  | cons a t => simpa [startsWithHyphen] using hs

theorem hasDoubleHyphen_append_single (s : Str) (c : Char)
    (hs : hasDoubleHyphen s = false)
    (hlast : ¬(s.getLast? = some '-' ∧ c = '-')) :
    hasDoubleHyphen (s ++ [c]) = false := by
  induction s with
  | nil => simp [hasDoubleHyphen]
  | cons a t ih =>
    cases t with
    | nil =>
      simp only [List.cons_append, List.nil_append]
      simp only [hasDoubleHyphen, Bool.or_eq_false_iff] at hs ⊢
      refine ⟨?_, by simp [hasDoubleHyphen]⟩
      by_cases ha : a = '-'
      · subst ha
        by_cases hcc : c = '-'
        · exact absurd ⟨rfl, hcc⟩ hlast
        · simp [hcc]
      · simp [ha]
    | cons b u =>
      simp only [hasDoubleHyphen, Bool.or_eq_false_iff] at hs
      have hlast2 : ¬((b :: u).getLast? = some '-' ∧ c = '-') := by
        intro hx
        apply hlast
        refine ⟨?_, hx.2⟩
        rw [List.getLast?_cons_cons]
        exact hx.1
      have := ih hs.2 hlast2
      simp only [List.cons_append]
      simp only [hasDoubleHyphen, Bool.or_eq_false_iff]
      exact ⟨hs.1, by simpa using this⟩

/-- Invariant carried by the collapsing fold: the accumulator has no edge
or double hyphens, and when the flag is false the accumulator is nonempty
and does not end with a hyphen. -/
def collapseInv (st : Bool × Str) : Prop :=
  startsWithHyphen st.2 = false ∧
  hasDoubleHyphen st.2 = false ∧
  (st.1 = false → st.2 ≠ [] ∧ endsWithHyphen st.2 = false)

theorem collapseStep_inv (st : Bool × Str) (c : Char)
    (h : collapseInv st) : collapseInv (collapseStep st c) := by
  obtain ⟨h1, h2, h3⟩ := h
  obtain ⟨b, acc⟩ := st
  by_cases hc : c = '-'
  · subst hc
    cases b with
    | true => exact ⟨h1, h2, by simp [collapseStep]⟩
    | false =>
      obtain ⟨hne, hend⟩ := h3 rfl
      refine ⟨?_, ?_, ?_⟩
      · simp only [collapseStep, if_pos rfl]
        exact startsWithHyphen_append_single _ _ h1 (fun hx => absurd hx hne)
      · simp only [collapseStep, if_pos rfl]
        apply hasDoubleHyphen_append_single _ _ h2
        intro hx
        rw [endsWithHyphen] at hend
        simp [hx.1] at hend
      · simp [collapseStep]
  · refine ⟨?_, ?_, ?_⟩
    · simp only [collapseStep, if_neg hc]
      exact startsWithHyphen_append_single _ _ h1 (fun _ => hc)
    · simp only [collapseStep, if_neg hc]
      exact hasDoubleHyphen_append_single _ _ h2 (fun hx => hc hx.2)
    · simp only [collapseStep, if_neg hc]
      intro _
      refine ⟨by simp, ?_⟩
      rw [endsWithHyphen]
      simp [List.getLast?_concat, hc]

theorem collapse_foldl_inv (s : Str) (st : Bool × Str) (h : collapseInv st) :
    collapseInv (s.foldl collapseStep st) := by
  induction s generalizing st with
  | nil => exact h
  | cons c t ih => exact ih _ (collapseStep_inv st c h)

theorem collapseHyphens_inv (s : Str) :
    startsWithHyphen (collapseHyphens s) = false ∧
    hasDoubleHyphen (collapseHyphens s) = false := by
  have := collapse_foldl_inv s (true, []) ⟨rfl, rfl, by simp⟩
  exact ⟨this.1, this.2.1⟩

theorem startsWithHyphen_dropLast (s : Str)
    (h : startsWithHyphen s = false) :
    startsWithHyphen s.dropLast = false := by
  cases s with
  | nil => simp [startsWithHyphen]
  | cons a t =>
    cases t with
    | nil => simp [startsWithHyphen]
    | cons b u =>
      rw [List.dropLast_cons₂]
      simpa [startsWithHyphen] using h

theorem hasDoubleHyphen_dropLast (s : Str) (h : hasDoubleHyphen s = false) :
    hasDoubleHyphen s.dropLast = false := by
  induction s with
  | nil => simp [hasDoubleHyphen]
  | cons a t ih =>
    cases t with
    | nil => simp [hasDoubleHyphen]
    | cons b u =>
      simp only [hasDoubleHyphen, Bool.or_eq_false_iff] at h
      have := ih h.2
      cases u with
      | nil => simp [hasDoubleHyphen]
      | cons d v =>
        rw [List.dropLast_cons₂, List.dropLast_cons₂]
        simp only [hasDoubleHyphen, Bool.or_eq_false_iff]
        refine ⟨h.1, ?_⟩
        rw [List.dropLast_cons₂] at this
        simpa using this

theorem hasDoubleHyphen_tail_pair (v : Str) :
    hasDoubleHyphen (v ++ ['-', '-']) = true := by
  induction v with
  | nil => rfl
  | cons x t ih =>
    cases t with
    | nil =>
      simp only [List.cons_append, List.nil_append]
      simp [hasDoubleHyphen, ih]
    | cons y u =>
      simp only [List.cons_append] at ih ⊢
      simp only [hasDoubleHyphen, Bool.or_eq_true]
      right
      simpa [hasDoubleHyphen] using ih

theorem endsWithHyphen_trimTrailingHyphen (s : Str)
    (hd : hasDoubleHyphen s = false) :
    endsWithHyphen (trimTrailingHyphen s) = false := by
  rw [trimTrailingHyphen]
  by_cases h : s.getLast? = some '-'
  · rw [if_pos h]
    rcases List.eq_nil_or_concat s with hnil | ⟨u, d, rfl⟩
    · subst hnil; simp [endsWithHyphen]
    · simp only [List.concat_eq_append] at hd h ⊢
      rw [List.getLast?_concat] at h
      have hdd : d = '-' := by injection h
      subst hdd
      rw [List.dropLast_concat]
      rw [endsWithHyphen]
      simp only [beq_eq_false_iff_ne, ne_eq]
      intro hu
      rcases List.eq_nil_or_concat u with hnil | ⟨v, e, rfl⟩
      · subst hnil; simp at hu
      · simp only [List.concat_eq_append] at hu hd
        rw [List.getLast?_concat] at hu
        have hee : e = '-' := by injection hu
        subst hee
        have : hasDoubleHyphen ((v ++ ['-']) ++ ['-']) = true := by
          have := hasDoubleHyphen_tail_pair v
          simpa using this
        rw [this] at hd
        exact absurd hd (by simp)
  · rw [if_neg h]
    rw [endsWithHyphen]
    simpa using h

theorem collapse_foldl_all (s : Str) (p : Char → Bool)
    (hs : s.all p = true) (st : Bool × Str)
    (hst : st.2.all p = true) :
    (s.foldl collapseStep st).2.all p = true := by
  induction s generalizing st with
  | nil => exact hst
  | cons c t ih =>
    simp only [List.all_cons, Bool.and_eq_true] at hs
    apply ih hs.2
    obtain ⟨b, acc⟩ := st
    by_cases hc : c = '-'
    · subst hc
      cases b with
      | true =>
        rw [collapseStep_hyphen_true]
        exact hst
      | false =>
        rw [collapseStep_hyphen_false]
        simp only [List.all_append, Bool.and_eq_true]
        refine ⟨hst, by simpa using hs.1⟩
    · rw [collapseStep_other _ _ _ hc]
      simp only [List.all_append, Bool.and_eq_true]
      exact ⟨hst, by simp [hs.1]⟩

theorem all_dropLast (s : Str) (p : Char → Bool) (h : s.all p = true) :
    s.dropLast.all p = true := by
  rw [List.all_eq_true] at h ⊢
  intro c hc
  exact h c (List.dropLast_subset s hc)

/-- C7, structural part: the slug of any input equals the slug of its
first 50 characters, has no edge or double hyphens, is nonempty, and
consists only of hyphens and non-uppercase alphanumerics. -/
theorem slugify_structure (s : Str) :
    slugify s = slugify (s.take 50) ∧
    startsWithHyphen (slugify s) = false ∧
    endsWithHyphen (slugify s) = false ∧
    hasDoubleHyphen (slugify s) = false ∧
    (slugify s).isEmpty = false ∧
    (slugify s).all slugChar = true := by
  refine ⟨by simp [slugify, List.take_take], ?_⟩
  have hmap : ((s.take 50).map
      (fun c => if is_alphanumeric c then to_ascii_lowercase c else '-')).all
      slugChar = true := by
    rw [List.all_eq_true]
    intro c hc
    rw [List.mem_map] at hc
    obtain ⟨a, _, ha⟩ := hc
    rw [← ha]
    exact slugChar_of_mapped a
  rw [slugify]
  set slug := (s.take 50).map
    (fun c => if is_alphanumeric c then to_ascii_lowercase c else '-') with hslug
  have hcinv := collapseHyphens_inv slug
  have hall : (collapseHyphens slug).all slugChar = true :=
    collapse_foldl_all slug slugChar hmap (true, []) (by simp)
  by_cases hcl : trimTrailingHyphen (collapseHyphens slug) = []
  · rw [if_pos hcl]
    refine ⟨by decide, by decide, by decide, by decide, by decide⟩
  · rw [if_neg hcl]
    refine ⟨?_, ?_, ?_, ?_, ?_⟩
    · rw [trimTrailingHyphen]
      by_cases h : (collapseHyphens slug).getLast? = some '-'
      · rw [if_pos h]
        exact startsWithHyphen_dropLast _ hcinv.1
      · rw [if_neg h]
        exact hcinv.1
    · exact endsWithHyphen_trimTrailingHyphen _ hcinv.2
    · rw [trimTrailingHyphen]
      by_cases h : (collapseHyphens slug).getLast? = some '-'
      · rw [if_pos h]
        exact hasDoubleHyphen_dropLast _ hcinv.2
      · rw [if_neg h]
        exact hcinv.2
    · simpa [List.isEmpty_iff] using hcl
    · rw [trimTrailingHyphen]
      by_cases h : (collapseHyphens slug).getLast? = some '-'
      · rw [if_pos h]
        exact all_dropLast _ _ hall
      · rw [if_neg h]
        exact hall

/-- C7: slugify takes the first 50 characters of its input, lowercases
alphanumeric characters (ASCII), collapses every run of non-alphanumeric
characters to a single hyphen, removes leading, trailing and duplicate
hyphens, and falls back to the fixed placeholder on an empty result; in
particular the four spec examples hold. -/
theorem c7_slugify_determinism :
    (∀ s : Str, slugify s = slugify (s.take 50) ∧
      startsWithHyphen (slugify s) = false ∧
      endsWithHyphen (slugify s) = false ∧
      hasDoubleHyphen (slugify s) = false ∧
      (slugify s).isEmpty = false ∧
      (slugify s).all slugChar = true) ∧
    slugify (("Who are you?").data) = ("who-are-you").data ∧
    slugify (("Hello   World").data) = ("hello-world").data ∧
    slugify (("!@#$").data) = ("new-chat").data ∧
    slugify (("Simple").data) = ("simple").data :=
  ⟨slugify_structure, by decide, by decide, by decide, by decide⟩

/-! ## Canonical session model (src/providers/base.rs) -/

inductive MessageRole
  | User
  | Assistant
  | System
deriving DecidableEq

structure TokenUsage where
  input : Nat
  output : Nat
  cached : Nat
deriving DecidableEq

structure MessageMetadata where
  model : Option Str
  tokens : Option TokenUsage
  tool_calls : List Str
  thoughts : List Str
deriving DecidableEq

/-- A chrono UTC instant, abstracted to its integral seconds value; no
claim below depends on calendar rendering. -/
abbrev Timestamp := Nat

structure ChatMessage where
  id : Str
  timestamp : Timestamp
  role : MessageRole
  content : Str
  metadata : MessageMetadata
deriving DecidableEq

structure ChatSession where
  session_id : Str
  provider : Str
  project_path : Str
  started_at : Timestamp
  updated_at : Timestamp
  messages : List ChatMessage
deriving DecidableEq

/-! ## Line splitting (Rust `str::lines`) -/

/-- Split at every newline character; a trailing newline contributes a
final empty segment which `linesOf` removes, matching Rust. -/
def splitNl : Str → List Str
  | [] => [[]]
  | c :: r =>
    if c = '\n' then [] :: splitNl r
    else
      match splitNl r with
      | l :: ls => (c :: l) :: ls
      | [] => [[c]]

/-- Rust `lines` strips one trailing carriage return from each line. -/
def stripCr (s : Str) : Str :=
  if s.getLast? = some '\r' then s.dropLast else s

/-- Rust `str::lines`. -/
def linesOf (s : Str) : List Str :=
  if s = [] then []
  else
    (if s.getLast? = some '\n' then (splitNl s).dropLast
     else splitNl s).map stripCr

/-! ## Title extraction (src/exporter/markdown.rs) -/

/-- Byte-based prefix extraction as in a Rust slice of the form s[..n]:
`some prefix` when byte offset `n` is a character boundary within the
string, `none` (a Rust panic) when the offset falls inside a character or
beyond the end. -/
def takeBytesExact (n : Nat) (s : Str) : Option Str :=
  match n, s with
  | 0, _ => some []
  | _ + 1, [] => none
  | n + 1, c :: r =>
    if c.utf8Size ≤ n + 1 then
      (takeBytesExact (n + 1 - c.utf8Size) r).map (fun t => c :: t)
    else none

/-- src/exporter/markdown.rs `extract_title`: the first line of the first
user message, returned verbatim when its byte length is at most 60, else
cut at byte offset 60 (a Rust byte slice: `none` models the panic on a
non-boundary offset) with an ellipsis appended; the fixed placeholder when
there is no user message or the message is empty. -/
def extract_title (messages : List ChatMessage) : Option Str :=
  match messages.find? (fun m => decide (m.role = MessageRole.User)) with
  | none => some ("Untitled Session").data
  | some m =>
    let first_line := ((linesOf m.content).head?).getD ("Untitled Session").data
    if utf8Len first_line > 60 then
      (takeBytesExact 60 first_line).map (fun p => p ++ ("...").data)
    else some first_line

theorem extract_title_user (messages : List ChatMessage) (m : ChatMessage)
    (h : messages.find? (fun x => decide (x.role = MessageRole.User)) = some m) :
    extract_title messages =
      (if utf8Len (((linesOf m.content).head?).getD ("Untitled Session").data) > 60 then
        (takeBytesExact 60
          (((linesOf m.content).head?).getD ("Untitled Session").data)).map
          (fun p => p ++ ("...").data)
      else some (((linesOf m.content).head?).getD ("Untitled Session").data)) := by
  unfold extract_title
  rw [h]

theorem extract_title_noUser (messages : List ChatMessage)
    (h : messages.find? (fun x => decide (x.role = MessageRole.User)) = none) :
    extract_title messages = some ("Untitled Session").data := by
  unfold extract_title
  rw [h]

theorem utf8Len_cons (c : Char) (t : Str) :
    utf8Len (c :: t) = c.utf8Size + utf8Len t := by
  simp [utf8Len]

theorem utf8Len_append (a b : Str) :
    utf8Len (a ++ b) = utf8Len a + utf8Len b := by
  simp [utf8Len]

theorem utf8Len_takeBytesExact (s : Str) :
    ∀ (n : Nat) (p : Str), takeBytesExact n s = some p → utf8Len p = n := by
  induction s with
  | nil =>
    intro n p h
    cases n with
    | zero =>
      simp only [takeBytesExact] at h
      injection h with h
      rw [← h]
      rfl
    | succ k => simp [takeBytesExact] at h
  | cons c r ih =>
    intro n p h
    cases n with
    | zero =>
      simp only [takeBytesExact] at h
      injection h with h
      rw [← h]
      rfl
    | succ k =>
      simp only [takeBytesExact] at h
      by_cases hsz : c.utf8Size ≤ k + 1
      · rw [if_pos hsz] at h
        cases htk : takeBytesExact (k + 1 - c.utf8Size) r with
        | none => rw [htk] at h; simp at h
        | some t =>
          rw [htk] at h
          have h2 : c :: t = p := by simpa using h
          have := ih _ _ htk
          rw [← h2, utf8Len_cons, this]
          omega
      · rw [if_neg hsz] at h
        simp at h

/-- C8 amended: title truncation is measured in UTF-8 bytes, not
characters.  The first line of the first user message appears verbatim
when it is at most 60 bytes long; when longer, and byte offset 60 is a
character boundary, the title is the 60-byte prefix (for ASCII input, the
60-character prefix) followed by the three-dot ellipsis, 63 bytes in
total; with no user message the title is the fixed placeholder. -/
theorem c8_title_byte_truncation (messages : List ChatMessage)
    (m : ChatMessage) (fl : Str)
    (hfind : messages.find? (fun x => decide (x.role = MessageRole.User)) = some m)
    (hfl : fl = ((linesOf m.content).head?).getD ("Untitled Session").data) :
    (utf8Len fl ≤ 60 → extract_title messages = some fl) ∧
    (∀ p, utf8Len fl > 60 → takeBytesExact 60 fl = some p →
      extract_title messages = some (p ++ ("...").data) ∧
      utf8Len p = 60 ∧ utf8Len (p ++ ("...").data) = 63) ∧
    (∀ msgs : List ChatMessage,
      msgs.find? (fun x => decide (x.role = MessageRole.User)) = none →
      extract_title msgs = some ("Untitled Session").data) := by
  refine ⟨?_, ?_, ?_⟩
  · intro hle
    rw [extract_title_user messages m hfind, ← hfl]
    rw [if_neg (by omega)]
  · intro p hgt htk
    rw [extract_title_user messages m hfind, ← hfl]
    rw [if_pos (by omega), htk]
    refine ⟨rfl, utf8Len_takeBytesExact fl 60 p htk, ?_⟩
    rw [utf8Len_append, utf8Len_takeBytesExact fl 60 p htk]
    rfl
  · intro msgs hnone
    exact extract_title_noUser msgs hnone

/-- C8 witness: the two concrete spec examples, through
`c8_title_byte_truncation`. -/
theorem c8_title_byte_truncation_witness :
    extract_title [⟨("1").data, 0, MessageRole.User,
      ("How do I implement a CLI tool?").data, ⟨none, none, [], []⟩⟩]
      = some (("How do I implement a CLI tool?").data) ∧
    extract_title [⟨("1").data, 0, MessageRole.User,
      List.replicate 90 'a', ⟨none, none, [], []⟩⟩]
      = some (List.replicate 60 'a' ++ ("...").data) := by
  constructor
  · exact (c8_title_byte_truncation
      [⟨("1").data, 0, MessageRole.User,
        ("How do I implement a CLI tool?").data, ⟨none, none, [], []⟩⟩]
      ⟨("1").data, 0, MessageRole.User,
        ("How do I implement a CLI tool?").data, ⟨none, none, [], []⟩⟩
      (("How do I implement a CLI tool?").data)
      (by decide) (by decide)).1 (by decide)
  · exact ((c8_title_byte_truncation
      [⟨("1").data, 0, MessageRole.User,
        List.replicate 90 'a', ⟨none, none, [], []⟩⟩]
      ⟨("1").data, 0, MessageRole.User,
        List.replicate 90 'a', ⟨none, none, [], []⟩⟩
      (List.replicate 90 'a')
      (by decide) (by decide)).2.1
      (List.replicate 60 'a') (by decide) (by decide)).1

/-- C8 counterexample: a first user message of 90 characters whose
characters are two bytes wide yields the 30-character (60-byte) prefix,
not the 60-character prefix the claim states. -/
theorem c8_counterexample :
    extract_title [⟨("1").data, 0, MessageRole.User,
      List.replicate 90 'é', ⟨none, none, [], []⟩⟩]
      = some (List.replicate 30 'é' ++ ("...").data) ∧
    List.replicate 30 'é' ++ ("...").data ≠
      (List.replicate 90 'é').take 60 ++ ("...").data := by
  constructor
  · decide
  · decide

/-- C10: the byte slice inside `extract_title` panics when byte offset 60
of the first line falls inside a multi-byte character: 59 one-byte
characters followed by a two-byte character make byte 60 a non-boundary,
and the model returns `none` (the Rust code aborts with a panic) even
though the call sites in `generate_markdown` expect a total title. -/
theorem c10_extract_title_panics :
    extract_title [⟨("1").data, 0, MessageRole.User,
      List.replicate 59 'a' ++ ['é', 'x'], ⟨none, none, [], []⟩⟩] = none := by
  decide

/-! ## Substring search (Rust `str::find`) -/

/-- First index at which `pat` occurs in the string, as Rust `str::find`;
indices are character positions (the Rust byte positions name the same
boundaries, and all downstream arithmetic uses pattern lengths of ASCII
patterns). -/
def findSub (pat : Str) : Str → Option Nat
  | [] => if pat.isPrefixOf ([] : Str) then some 0 else none
  | c :: t =>
    if pat.isPrefixOf (c :: t) then some 0
    else (findSub pat t).map (fun i => i + 1)

/-- Rust `str::contains`. -/
def containsSub (s pat : Str) : Bool := (findSub pat s).isSome

/-- Rust `starts_with` on a single slash character. -/
def startsWithSlash (s : Str) : Bool := s.head? == some '/'

/-- Rust `join` with a newline separator. -/
def joinNl (l : List Str) : Str := List.intercalate ['\n'] l

/-! ## Claude provider (src/providers/claude.rs) -/

structure ClaudeContentItem where
  content_type : Str
  text : Option Str
  name : Option Str
deriving DecidableEq

inductive ClaudeContent
  | Text (s : Str)
  | Array (items : List ClaudeContentItem)
deriving DecidableEq

structure ClaudeUsage where
  input_tokens : Nat
  output_tokens : Nat
  cache_read_input_tokens : Option Nat
deriving DecidableEq

structure ClaudeMessage where
  role : Str
  content : ClaudeContent
  model : Option Str
  usage : Option ClaudeUsage
deriving DecidableEq

/-- A decoded claude JSONL event.  The `timestamp` field holds the result
of the RFC 3339 parse of the raw string (`none` for an absent field or an
unparseable value; the code substitutes the current instant either way). -/
structure ClaudeEvent where
  event_type : Str
  session_id : Option Str
  cwd : Option Str
  timestamp : Option Timestamp
  uuid : Option Str
  is_sidechain : Option Bool
  message : Option ClaudeMessage
deriving DecidableEq

/-- Second half of `format_claude_xml` (src/providers/claude.rs lines 231
to 238), reached when the command-name rewriting does not fire: the first
embedded command-stdout tag is rewritten to a quoted block, anything else
is returned unchanged. -/
def format_claude_stdout (content : Str) : Str :=
  match findSub (("<local-command-stdout>").data) content with
  | some start =>
    match findSub (("</local-command-stdout>").data) (content.drop start) with
    | some e =>
      ("> âŽ¿ ").data ++ trimStr ((content.drop (start + 22)).take (e - 22))
    | none => content
  | none => content

/-- `format_claude_xml` (src/providers/claude.rs lines 216 to 239): the
first embedded command-name tag whose command text starts with a slash is
rewritten to a quoted one-line form; otherwise control falls through to
the command-stdout rewriting. -/
def format_claude_xml (content : Str) : Str :=
  match findSub (("<command-name>").data) content with
  | some start =>
    match findSub (("</command-name>").data) (content.drop start) with
    | some e =>
      if startsWithSlash (trimStr ((content.drop (start + 14)).take (e - 14))) then
        ("> ").data ++ trimStr ((content.drop (start + 14)).take (e - 14))
      else format_claude_stdout content
    | none => format_claude_stdout content
  | none => format_claude_stdout content

/-- Content extraction of `ClaudeProvider::parse_message` (lines 139 to
155): a plain string is taken as is; a block list contributes exactly the
text of the blocks tagged as text, newline-joined, in order. -/
def claude_extract_content : ClaudeContent → Str
  | ClaudeContent.Text t => t
  | ClaudeContent.Array items =>
    joinNl (items.filterMap
      (fun item => if item.content_type = ("text").data then item.text else none))

/-- `ClaudeProvider::parse_message`.  `now` stands for `Utc::now()` and
`freshId` for the freshly generated uuid used when the event carries
none; the Rust return type is `Result` but no error path exists. -/
def claude_parse_message (now : Timestamp) (freshId : Str)
    (event : ClaudeEvent) : Option ChatMessage :=
  let role? : Option MessageRole :=
    if event.event_type = ("user").data then some MessageRole.User
    else if event.event_type = ("assistant").data then some MessageRole.Assistant
    else none
  match role? with
  | none => none
  | some role =>
    match event.message with
    | none => none
    | some msg =>
      if claude_extract_content msg.content = [] then none
      else
        some ⟨event.uuid.getD freshId, event.timestamp.getD now, role,
          (if role = MessageRole.User then
            format_claude_xml (claude_extract_content msg.content)
          else claude_extract_content msg.content),
          ⟨msg.model,
           msg.usage.map (fun u =>
             TokenUsage.mk u.input_tokens u.output_tokens
               (u.cache_read_input_tokens.getD 0)),
           (match msg.content with
            | ClaudeContent.Array items =>
              (items.filter
                (fun i => i.content_type = ("tool_use").data)).filterMap
                (fun i => i.name)
            | _ => []),
           []⟩⟩

/-- Mutable locals of `ClaudeProvider::parse_session` while folding over
the decoded lines.  `nextId` indexes the uuid supply. -/
structure ClaudeFoldState where
  messages : List ChatMessage
  session_id : Str
  started_at : Timestamp
  project_path : Str
  nextId : Nat
deriving DecidableEq

/-- First half of a loop iteration of `ClaudeProvider::parse_session`
(lines 85 to 98): adopt session metadata while the session id is still
empty. -/
def claude_step_meta (fileStem : Str) (st : ClaudeFoldState)
    (event : ClaudeEvent) : ClaudeFoldState :=
  if st.session_id = [] then
    { st with
      session_id := event.session_id.getD fileStem,
      project_path := (event.cwd).getD st.project_path }
  else st

/-- Second half of a loop iteration of `ClaudeProvider::parse_session`
(lines 100 to 108): parse user and assistant events into messages. -/
def claude_step_msg (now : Timestamp) (ids : Nat → Str)
    (st1 : ClaudeFoldState) (event : ClaudeEvent) : ClaudeFoldState :=
  if event.event_type = ("user").data ∨ event.event_type = ("assistant").data then
    match claude_parse_message now (ids st1.nextId) event with
    | some msg =>
      { st1 with
        messages := st1.messages ++ [msg],
        started_at := if st1.messages = [] then msg.timestamp else st1.started_at,
        nextId := st1.nextId + (if event.uuid = none then 1 else 0) }
    | none => st1
  else st1

/-- One loop iteration of `ClaudeProvider::parse_session` (lines 78 to
109) on a successfully decoded event. -/
def claude_step (fileStem : Str) (now : Timestamp) (ids : Nat → Str)
    (st : ClaudeFoldState) (event : ClaudeEvent) : ClaudeFoldState :=
  claude_step_msg now ids (claude_step_meta fileStem st event) event

/-- The loop of `ClaudeProvider::parse_session`: a line that fails JSON
decoding (`none`) aborts the whole parse. -/
def claude_run (fileStem : Str) (now : Timestamp) (ids : Nat → Str) :
    List (Option ClaudeEvent) → ClaudeFoldState → Option ClaudeFoldState
  | [], st => some st
  | none :: _, _ => none
  | some e :: rest, st =>
    claude_run fileStem now ids rest (claude_step fileStem now ids st e)

/-- `ClaudeProvider::parse_session` over the list of decode results of the
nonblank lines of the file (`none` marks a line whose JSON decoding
fails, which is a document-level failure). -/
def claude_parse_session (fileStem : Str) (now : Timestamp) (ids : Nat → Str)
    (events : List (Option ClaudeEvent)) : Except Str ChatSession :=
  match claude_run fileStem now ids events ⟨[], [], now, [], 0⟩ with
  | none => Except.error (("JSON parsing error").data)
  | some st =>
    Except.ok ⟨st.session_id, ("claude").data, st.project_path, st.started_at,
      ((st.messages.getLast?).map (fun m => m.timestamp)).getD st.started_at,
      st.messages⟩

/-! ## Codex provider (src/providers/codex.rs) -/

structure CodexContent where
  content_type : Str
  text : Option Str
deriving DecidableEq

structure CodexPayload where
  role : Option Str
  cwd : Option Str
  content : Option (List CodexContent)
deriving DecidableEq

/-- A decoded codex JSONL event; `timestamp` is the RFC 3339 parse result
of the required raw string (`none` when unparseable; the code substitutes
the current instant). -/
structure CodexEvent where
  event_type : Str
  timestamp : Option Timestamp
  payload : Option CodexPayload
deriving DecidableEq

/-- `CodexProvider::parse_response_item` (lines 255 to 304).  Content
extraction takes the text of the first block that carries a text field
(the block type tag is never consulted); system-injected user messages
matching the known markers are suppressed. -/
def codex_parse_response_item (now : Timestamp) (freshId : Str)
    (payload : CodexPayload) (timestamp : Option Timestamp) :
    Option ChatMessage :=
  let role? : Option MessageRole :=
    match payload.role with
    | some r =>
      if r = ("user").data then some MessageRole.User
      else if r = ("assistant").data then some MessageRole.Assistant
      else none
    | none => none
  match role? with
  | none => none
  | some role =>
    if (payload.content.bind
        (fun c => c.findSome? (fun item => item.text))).getD [] = [] then none
    else
      if role = MessageRole.User ∧
          (containsSub ((payload.content.bind
              (fun c => c.findSome? (fun item => item.text))).getD [])
            (("<environment_context>").data) = true ∨
           containsSub ((payload.content.bind
              (fun c => c.findSome? (fun item => item.text))).getD [])
            (("<INSTRUCTIONS>").data) = true ∨
           containsSub ((payload.content.bind
              (fun c => c.findSome? (fun item => item.text))).getD [])
            (("# AGENTS.md instructions").data) = true) then
        none
      else
        some ⟨freshId, timestamp.getD now, role,
          (payload.content.bind
            (fun c => c.findSome? (fun item => item.text))).getD [],
          ⟨none, none, [], []⟩⟩

/-- Mutable locals of `CodexProvider::parse_session`. -/
structure CodexFoldState where
  messages : List ChatMessage
  session_id : Str
  started_at : Timestamp
  project_path : Str
  nextId : Nat
deriving DecidableEq

/-- First half of a loop iteration of `CodexProvider::parse_session`
(lines 145 to 151): adopt the file stem as session id while it is still
empty. -/
def codex_step_meta (fileStem : Str) (st : CodexFoldState) : CodexFoldState :=
  if st.session_id = [] then { st with session_id := fileStem } else st

/-- Adjacent-duplicate test of `CodexProvider::parse_session` (lines 168
to 172). -/
def codex_is_duplicate (msgs : List ChatMessage) (msg : ChatMessage) : Bool :=
  match msgs.getLast? with
  | some last =>
    decide (last.role = msg.role) && decide (last.content = msg.content)
  | none => false

/-- Second half of a loop iteration of `CodexProvider::parse_session`
(lines 153 to 180): dispatch on the event type. -/
def codex_step_event (now : Timestamp) (ids : Nat → Str)
    (st1 : CodexFoldState) (event : CodexEvent) : CodexFoldState :=
  if event.event_type = ("session_meta").data ∨
      event.event_type = ("turn_context").data then
    match event.payload.bind (fun p => p.cwd) with
    | some cwd => { st1 with project_path := cwd }
    | none => st1
  else if event.event_type = ("response_item").data then
    match event.payload with
    | some payload =>
      match codex_parse_response_item now (ids st1.nextId) payload
          event.timestamp with
      | some msg =>
        if codex_is_duplicate st1.messages msg then
          { st1 with
            started_at :=
              if st1.messages = [] then msg.timestamp else st1.started_at,
            nextId := st1.nextId + 1 }
        else
          { st1 with
            messages := st1.messages ++ [msg],
            started_at :=
              if st1.messages = [] then msg.timestamp else st1.started_at,
            nextId := st1.nextId + 1 }
      | none => st1
    | none => st1
  else st1

/-- One loop iteration of `CodexProvider::parse_session` (lines 138 to
182) on a successfully decoded event. -/
def codex_step (fileStem : Str) (now : Timestamp) (ids : Nat → Str)
    (st : CodexFoldState) (event : CodexEvent) : CodexFoldState :=
  codex_step_event now ids (codex_step_meta fileStem st) event

/-- The loop of `CodexProvider::parse_session`: a line that fails JSON
decoding (`none`) is skipped. -/
def codex_run (fileStem : Str) (now : Timestamp) (ids : Nat → Str) :
    List (Option CodexEvent) → CodexFoldState → CodexFoldState
  | [], st => st
  | none :: rest, st => codex_run fileStem now ids rest st
  | some e :: rest, st =>
    codex_run fileStem now ids rest (codex_step fileStem now ids st e)

/-- `CodexProvider::parse_session` over the decode results of the
nonblank lines of the file. -/
def codex_parse_session (fileStem : Str) (now : Timestamp) (ids : Nat → Str)
    (events : List (Option CodexEvent)) : ChatSession :=
  let st := codex_run fileStem now ids events ⟨[], [], now, [], 0⟩
  ⟨st.session_id, ("codex").data, st.project_path, st.started_at,
    ((st.messages.getLast?).map (fun m => m.timestamp)).getD st.started_at,
    st.messages⟩

/-! ## Gemini provider (src/providers/gemini.rs) -/

structure GeminiThought where
  subject : Str
  description : Str
  timestamp : Str
deriving DecidableEq

structure GeminiTokens where
  input : Nat
  output : Nat
  cached : Nat
deriving DecidableEq

/-- A decoded gemini message; `timestamp` is the RFC 3339 parse result of
the required raw string. -/
structure GeminiMessage where
  id : Str
  timestamp : Option Timestamp
  message_type : Str
  content : Str
  model : Option Str
  thoughts : Option (List GeminiThought)
  tokens : Option GeminiTokens
deriving DecidableEq

/-- The decoded single-document gemini session file; the two session
timestamps carry their RFC 3339 parse results. -/
structure GeminiSession where
  session_id : Str
  project_hash : Str
  start_time : Option Timestamp
  last_updated : Option Timestamp
  messages : List GeminiMessage
deriving DecidableEq

/-- `GeminiProvider::parse_message` (lines 111 to 153). -/
def gemini_parse_message (now : Timestamp) (msg : GeminiMessage) :
    Option ChatMessage :=
  let role? : Option MessageRole :=
    if msg.message_type = ("user").data then some MessageRole.User
    else if msg.message_type = ("gemini").data then some MessageRole.Assistant
    else none
  match role? with
  | none => none
  | some role =>
    if msg.content = [] then none
    else
      some ⟨msg.id, msg.timestamp.getD now, role, msg.content,
        ⟨msg.model,
         msg.tokens.map (fun t => TokenUsage.mk t.input t.output t.cached),
         [],
         (msg.thoughts.getD []).map
           (fun t => t.subject ++ (": ").data ++ t.description)⟩⟩

/-- `GeminiProvider::parse_session` on an already-decoded session
document; `projectPath` stands for the grandparent directory of the file
path. -/
def gemini_parse_session (projectPath : Str) (now : Timestamp)
    (sd : GeminiSession) : ChatSession :=
  let messages := sd.messages.filterMap (gemini_parse_message now)
  let started_at := sd.start_time.getD now
  ⟨sd.session_id, ("gemini").data, projectPath, started_at,
    sd.last_updated.getD started_at, messages⟩

/-! ## C5: no message with empty content is materialized -/

theorem format_claude_stdout_cases (c : Str) :
    (∃ t, format_claude_stdout c = '>' :: ' ' :: t) ∨
      format_claude_stdout c = c := by
  rw [format_claude_stdout]
  split
  · split
    · left; exact ⟨_, rfl⟩
    · right; rfl
  · right; rfl

theorem format_claude_xml_cases (c : Str) :
    (∃ t, format_claude_xml c = '>' :: ' ' :: t) ∨ format_claude_xml c = c := by
  rw [format_claude_xml]
  split
  · split
    · split
      · left; exact ⟨_, rfl⟩
      · exact format_claude_stdout_cases c
    · exact format_claude_stdout_cases c
  · exact format_claude_stdout_cases c

theorem format_claude_xml_ne_nil (c : Str) (h : c ≠ []) :
    format_claude_xml c ≠ [] := by
  rcases format_claude_xml_cases c with ⟨t, ht⟩ | hc
  · rw [ht]; simp
  · rw [hc]; exact h

theorem claude_parse_message_content_ne (now : Timestamp) (freshId : Str)
    (event : ClaudeEvent) (m : ChatMessage)
    (h : claude_parse_message now freshId event = some m) :
    m.content ≠ [] := by
  rw [claude_parse_message] at h
  split at h
  · exact absurd h (by simp)
  · rename_i role hrole
    split at h
    · exact absurd h (by simp)
    · rename_i msg hmsg
      split at h
      · exact absurd h (by simp)
      · rename_i hne
        injection h with h
        have hcontent : m.content =
            (if role = MessageRole.User then
              format_claude_xml (claude_extract_content msg.content)
            else claude_extract_content msg.content) := by
          rw [← h]
        rw [hcontent]
        split
        · exact format_claude_xml_ne_nil _ hne
        · exact hne

theorem codex_parse_response_item_content_ne (now : Timestamp)
    (freshId : Str) (payload : CodexPayload) (ts : Option Timestamp)
    (m : ChatMessage)
    (h : codex_parse_response_item now freshId payload ts = some m) :
    m.content ≠ [] := by
  rw [codex_parse_response_item] at h
  split at h
  · exact absurd h (by simp)
  · rename_i role hrole
    split at h
    · exact absurd h (by simp)
    · rename_i hne
      split at h
      · exact absurd h (by simp)
      · injection h with h
        have hcontent : m.content = (payload.content.bind
            (fun c => c.findSome? (fun item => item.text))).getD [] := by
          rw [← h]
        rw [hcontent]
        exact hne

theorem gemini_parse_message_content_ne (now : Timestamp)
    (msg : GeminiMessage) (m : ChatMessage)
    (h : gemini_parse_message now msg = some m) : m.content ≠ [] := by
  rw [gemini_parse_message] at h
  split at h
  · exact absurd h (by simp)
  · rename_i role hrole
    split at h
    · exact absurd h (by simp)
    · rename_i hne
      injection h with h
      have hcontent : m.content = msg.content := by rw [← h]
      rw [hcontent]
      exact hne

/-- Nonempty-content invariant of the message accumulator. -/
def msgsNonEmpty (l : List ChatMessage) : Bool :=
  l.all (fun m => !m.content.isEmpty)

theorem msgsNonEmpty_append_single (l : List ChatMessage) (m : ChatMessage)
    (hl : msgsNonEmpty l = true) (hm : m.content ≠ []) :
    msgsNonEmpty (l ++ [m]) = true := by
  simp only [msgsNonEmpty, List.all_append, Bool.and_eq_true] at hl ⊢
  refine ⟨hl, ?_⟩
  simpa [List.isEmpty_iff] using hm

theorem claude_step_meta_messages (fileStem : Str) (st : ClaudeFoldState)
    (event : ClaudeEvent) :
    (claude_step_meta fileStem st event).messages = st.messages := by
  rw [claude_step_meta]
  split <;> rfl

theorem claude_step_msg_msgs (now : Timestamp) (ids : Nat → Str)
    (st1 : ClaudeFoldState) (event : ClaudeEvent)
    (h : msgsNonEmpty st1.messages = true) :
    msgsNonEmpty (claude_step_msg now ids st1 event).messages = true := by
  rw [claude_step_msg]
  split
  · split
    · rename_i msg hmsg
      exact msgsNonEmpty_append_single _ _ h
        (claude_parse_message_content_ne _ _ _ _ hmsg)
    · exact h
  · exact h

theorem claude_step_msgs (fileStem : Str) (now : Timestamp) (ids : Nat → Str)
    (st : ClaudeFoldState) (event : ClaudeEvent)
    (h : msgsNonEmpty st.messages = true) :
    msgsNonEmpty (claude_step fileStem now ids st event).messages = true := by
  rw [claude_step]
  apply claude_step_msg_msgs
  rw [claude_step_meta_messages]
  exact h

theorem claude_run_msgs (fileStem : Str) (now : Timestamp) (ids : Nat → Str)
    (events : List (Option ClaudeEvent)) :
    ∀ (st st2 : ClaudeFoldState),
      msgsNonEmpty st.messages = true →
      claude_run fileStem now ids events st = some st2 →
      msgsNonEmpty st2.messages = true := by
  induction events with
  | nil =>
    intro st st2 h hrun
    rw [claude_run] at hrun
    injection hrun with hrun
    rw [← hrun]
    exact h
  | cons e rest ih =>
    intro st st2 h hrun
    cases e with
    | none => exact absurd hrun (by rw [claude_run]; simp)
    | some ev =>
      rw [claude_run] at hrun
      exact ih _ _ (claude_step_msgs fileStem now ids st ev h) hrun

theorem codex_step_meta_messages (fileStem : Str) (st : CodexFoldState) :
    (codex_step_meta fileStem st).messages = st.messages := by
  rw [codex_step_meta]
  split <;> rfl

theorem codex_step_event_msgs (now : Timestamp) (ids : Nat → Str)
    (st1 : CodexFoldState) (event : CodexEvent)
    (h : msgsNonEmpty st1.messages = true) :
    msgsNonEmpty (codex_step_event now ids st1 event).messages = true := by
  rw [codex_step_event]
  split
  · split
    · exact h
    · exact h
  · split
    · split
      · rename_i payload hpay
        split
        · rename_i msg hmsg
          split
          · exact h
          · exact msgsNonEmpty_append_single _ _ h
              (codex_parse_response_item_content_ne _ _ _ _ _ hmsg)
        · exact h
      · exact h
    · exact h

theorem codex_step_msgs (fileStem : Str) (now : Timestamp) (ids : Nat → Str)
    (st : CodexFoldState) (event : CodexEvent)
    (h : msgsNonEmpty st.messages = true) :
    msgsNonEmpty (codex_step fileStem now ids st event).messages = true := by
  rw [codex_step]
  apply codex_step_event_msgs
  rw [codex_step_meta_messages]
  exact h

theorem codex_run_msgs (fileStem : Str) (now : Timestamp) (ids : Nat → Str)
    (events : List (Option CodexEvent)) :
    ∀ (st : CodexFoldState),
      msgsNonEmpty st.messages = true →
      msgsNonEmpty (codex_run fileStem now ids events st).messages = true := by
  induction events with
  | nil => intro st h; exact h
  | cons e rest ih =>
    intro st h
    cases e with
    | none => exact ih st h
    | some ev => exact ih _ (codex_step_msgs fileStem now ids st ev h)

/-- C5: for every provider parser, every message in the parsed session has
non-empty content; an event whose extracted content is empty never enters
the message list. -/
theorem c5_no_empty_content :
    (∀ (fileStem : Str) (now : Timestamp) (ids : Nat → Str)
      (events : List (Option ClaudeEvent)) (s : ChatSession),
      claude_parse_session fileStem now ids events = Except.ok s →
      msgsNonEmpty s.messages = true) ∧
    (∀ (fileStem : Str) (now : Timestamp) (ids : Nat → Str)
      (events : List (Option CodexEvent)),
      msgsNonEmpty (codex_parse_session fileStem now ids events).messages
        = true) ∧
    (∀ (projectPath : Str) (now : Timestamp) (sd : GeminiSession),
      msgsNonEmpty (gemini_parse_session projectPath now sd).messages
        = true) := by
  refine ⟨?_, ?_, ?_⟩
  · intro fileStem now ids events s h
    rw [claude_parse_session] at h
    cases hrun : claude_run fileStem now ids events ⟨[], [], now, [], 0⟩ with
    | none => rw [hrun] at h; exact absurd h (by simp)
    | some st =>
      rw [hrun] at h
      injection h with h
      rw [← h]
      exact claude_run_msgs fileStem now ids events ⟨[], [], now, [], 0⟩ st rfl hrun
  · intro fileStem now ids events
    rw [codex_parse_session]
    exact codex_run_msgs fileStem now ids events ⟨[], [], now, [], 0⟩ rfl
  · intro projectPath now sd
    rw [gemini_parse_session]
    simp only [msgsNonEmpty, List.all_eq_true]
    intro m hm
    rw [List.mem_filterMap] at hm
    obtain ⟨g, _, hg⟩ := hm
    have := gemini_parse_message_content_ne now g m hg
    simpa [List.isEmpty_iff] using this

/-- C5 witness: a concrete claude log with one nonblank line parses to a
one-message session whose message content is the nonempty string Hi. -/
theorem c5_no_empty_content_witness :
    msgsNonEmpty ([⟨("u1").data, 5, MessageRole.User, ("Hi").data,
      ⟨none, none, [], []⟩⟩] : List ChatMessage) = true :=
  c5_no_empty_content.1 (("f").data) 0 (fun _ => ("u").data)
    [some ⟨("user").data, some (("s1").data), some (("/p").data), some 5,
      some (("u1").data), none,
      some ⟨("user").data, ClaudeContent.Text (("Hi").data), none, none⟩⟩]
    ⟨("s1").data, ("claude").data, ("/p").data, 5, 5,
      [⟨("u1").data, 5, MessageRole.User, ("Hi").data, ⟨none, none, [], []⟩⟩]⟩
    (by rfl)

/-! ## C6: content extraction from structured block lists -/

/-- Modelled from the spec sentence for C6, for the refinement comparison:
the newline-join, in original order, of exactly the blocks tagged as plain
text (claude block shape). -/
def spec_text_join_claude (items : List ClaudeContentItem) : Str :=
  joinNl (items.filterMap
    (fun item => if item.content_type = ("text").data then item.text else none))

/-- Modelled from the spec sentence for C6, for the refinement comparison:
the newline-join, in original order, of exactly the blocks tagged as plain
text (codex block shape). -/
def spec_text_join_codex (blocks : List CodexContent) : Str :=
  joinNl (blocks.filterMap
    (fun item => if item.content_type = ("text").data then item.text else none))

/-- C6 counterexample: a codex response item whose content is two text
blocks yields only the first text, not the newline-join of both that the
claim requires. -/
theorem c6_counterexample :
    (codex_parse_response_item 0 (("u").data)
      ⟨some (("user").data), none,
        some [⟨("text").data, some (("a").data)⟩,
              ⟨("text").data, some (("b").data)⟩]⟩ (some 1)).map
        (fun m => m.content) = some (("a").data) ∧
    spec_text_join_codex
      [⟨("text").data, some (("a").data)⟩,
       ⟨("text").data, some (("b").data)⟩] = ("a\nb").data ∧
    (("a").data : Str) ≠ ("a\nb").data := by
  refine ⟨by rfl, by rfl, by decide⟩

/-- C6 amended: for the claude format the extracted content of a block
list is exactly the newline-join of the text-tagged blocks in order; for
the codex format the extracted content is the text of the first block
carrying a text field, regardless of block tags. -/
theorem c6_content_extraction :
    (∀ items : List ClaudeContentItem,
      claude_extract_content (ClaudeContent.Array items)
        = spec_text_join_claude items) ∧
    (∀ (now : Timestamp) (freshId : Str) (payload : CodexPayload)
      (ts : Option Timestamp) (m : ChatMessage),
      codex_parse_response_item now freshId payload ts = some m →
      m.content = (payload.content.bind
        (fun c => c.findSome? (fun item => item.text))).getD []) := by
  constructor
  · intro items
    rfl
  · intro now freshId payload ts m h
    rw [codex_parse_response_item] at h
    split at h
    · exact absurd h (by simp)
    · split at h
      · exact absurd h (by simp)
      · split at h
        · exact absurd h (by simp)
        · injection h with h
          rw [← h]

/-- C6 witness: a concrete codex response item with a single block. -/
theorem c6_content_extraction_witness :
    (⟨("u").data, 1, MessageRole.Assistant, ("x").data,
      ⟨none, none, [], []⟩⟩ : ChatMessage).content
      = ((some [⟨("output_text").data, some (("x").data)⟩] :
          Option (List CodexContent)).bind
          (fun c => c.findSome? (fun item => item.text))).getD [] :=
  c6_content_extraction.2 1 (("u").data)
    ⟨some (("assistant").data), none,
      some [⟨("output_text").data, some (("x").data)⟩]⟩ (some 1)
    ⟨("u").data, 1, MessageRole.Assistant, ("x").data, ⟨none, none, [], []⟩⟩
    (by rfl)

/-! ## C9: adjacent-duplicate suppression in the codex parser -/

theorem codex_parse_response_item_id (now : Timestamp) (id1 id2 : Str)
    (payload : CodexPayload) (ts : Option Timestamp) (m1 : ChatMessage)
    (h : codex_parse_response_item now id1 payload ts = some m1) :
    codex_parse_response_item now id2 payload ts
      = some ⟨id2, m1.timestamp, m1.role, m1.content, m1.metadata⟩ := by
  rw [codex_parse_response_item] at h ⊢
  split at h
  · exact absurd h (by simp)
  · rename_i role hrole
    split at h
    · exact absurd h (by simp)
    · rename_i hne
      split at h
      · exact absurd h (by simp)
      · rename_i hfilter
        injection h with h
        rw [← h]
        rw [if_neg hne, if_neg hfilter]

theorem codex_is_duplicate_elim (msgs : List ChatMessage) (m : ChatMessage)
    (h : codex_is_duplicate msgs m = true) :
    ∃ last, msgs.getLast? = some last ∧ last.role = m.role ∧
      last.content = m.content := by
  rw [codex_is_duplicate] at h
  split at h
  · rename_i last hlast
    simp only [Bool.and_eq_true, decide_eq_true_eq] at h
    exact ⟨last, hlast, h.1, h.2⟩
  · exact absurd h (by simp)

theorem codex_is_duplicate_intro (msgs : List ChatMessage)
    (m last : ChatMessage) (hlast : msgs.getLast? = some last)
    (hrole : last.role = m.role) (hcontent : last.content = m.content) :
    codex_is_duplicate msgs m = true := by
  rw [codex_is_duplicate, hlast]
  simp [hrole, hcontent]

theorem codex_step_meta_nextId (fileStem : Str) (st : CodexFoldState) :
    (codex_step_meta fileStem st).nextId = st.nextId := by
  rw [codex_step_meta]
  split <;> rfl

theorem codex_step_response (fileStem : Str) (now : Timestamp)
    (ids : Nat → Str) (st : CodexFoldState) (ev : CodexEvent)
    (payload : CodexPayload)
    (hty : ev.event_type = ("response_item").data)
    (hpay : ev.payload = some payload) :
    codex_step fileStem now ids st ev =
      (match codex_parse_response_item now
          (ids (codex_step_meta fileStem st).nextId) payload ev.timestamp with
       | some msg =>
         if codex_is_duplicate (codex_step_meta fileStem st).messages msg then
           { codex_step_meta fileStem st with
             started_at :=
               if (codex_step_meta fileStem st).messages = [] then msg.timestamp
               else (codex_step_meta fileStem st).started_at,
             nextId := (codex_step_meta fileStem st).nextId + 1 }
         else
           { codex_step_meta fileStem st with
             messages := (codex_step_meta fileStem st).messages ++ [msg],
             started_at :=
               if (codex_step_meta fileStem st).messages = [] then msg.timestamp
               else (codex_step_meta fileStem st).started_at,
             nextId := (codex_step_meta fileStem st).nextId + 1 }
       | none => codex_step_meta fileStem st) := by
  rw [codex_step, codex_step_event, hty, hpay]
  rw [if_neg (by decide), if_pos rfl]

theorem codex_step_response_some (fileStem : Str) (now : Timestamp)
    (ids : Nat → Str) (st : CodexFoldState) (ev : CodexEvent)
    (payload : CodexPayload) (msg : ChatMessage)
    (hty : ev.event_type = ("response_item").data)
    (hpay : ev.payload = some payload)
    (hmsg : codex_parse_response_item now
      (ids (codex_step_meta fileStem st).nextId) payload ev.timestamp
      = some msg) :
    codex_step fileStem now ids st ev =
      (if codex_is_duplicate (codex_step_meta fileStem st).messages msg then
        { codex_step_meta fileStem st with
          started_at :=
            if (codex_step_meta fileStem st).messages = [] then msg.timestamp
            else (codex_step_meta fileStem st).started_at,
          nextId := (codex_step_meta fileStem st).nextId + 1 }
      else
        { codex_step_meta fileStem st with
          messages := (codex_step_meta fileStem st).messages ++ [msg],
          started_at :=
            if (codex_step_meta fileStem st).messages = [] then msg.timestamp
            else (codex_step_meta fileStem st).started_at,
          nextId := (codex_step_meta fileStem st).nextId + 1 }) := by
  rw [codex_step_response fileStem now ids st ev payload hty hpay, hmsg]

theorem codex_run_append (fileStem : Str) (now : Timestamp) (ids : Nat → Str)
    (a b : List (Option CodexEvent)) :
    ∀ st, codex_run fileStem now ids (a ++ b) st
      = codex_run fileStem now ids b (codex_run fileStem now ids a st) := by
  induction a with
  | nil => intro st; rfl
  | cons e rest ih =>
    intro st
    cases e with
    | none =>
      rw [List.cons_append, codex_run, codex_run]
      exact ih st
    | some ev =>
      rw [List.cons_append, codex_run, codex_run]
      exact ih _

theorem codex_step_meta_messages' (fileStem : Str) (st : CodexFoldState) :
    (codex_step_meta fileStem st).messages = st.messages :=
  codex_step_meta_messages fileStem st

theorem codex_step_twice (fileStem : Str) (now : Timestamp) (ids : Nat → Str)
    (st : CodexFoldState) (ev : CodexEvent) (payload : CodexPayload)
    (hty : ev.event_type = ("response_item").data)
    (hpay : ev.payload = some payload)
    (hsome : ∀ freshId,
      (codex_parse_response_item now freshId payload ev.timestamp).isSome
        = true) :
    (codex_step fileStem now ids (codex_step fileStem now ids st ev) ev).messages
      = (codex_step fileStem now ids st ev).messages := by
  obtain ⟨msg1, hmsg1⟩ := Option.isSome_iff_exists.mp
    (hsome (ids (codex_step_meta fileStem st).nextId))
  set st1 := codex_step fileStem now ids st ev with hst1
  obtain ⟨msg2, hmsg2⟩ := Option.isSome_iff_exists.mp
    (hsome (ids (codex_step_meta fileStem st1).nextId))
  have hmsg2' := codex_parse_response_item_id now
    (ids (codex_step_meta fileStem st).nextId)
    (ids (codex_step_meta fileStem st1).nextId)
    payload ev.timestamp msg1 hmsg1
  have hfields : msg2.role = msg1.role ∧ msg2.content = msg1.content := by
    rw [hmsg2] at hmsg2'
    injection hmsg2' with hh
    rw [hh]
    exact ⟨rfl, rfl⟩
  -- first-step messages: either a suppressed duplicate or an append
  have h1 : (st1.messages = (codex_step_meta fileStem st).messages ∧
      codex_is_duplicate (codex_step_meta fileStem st).messages msg1 = true) ∨
      st1.messages = (codex_step_meta fileStem st).messages ++ [msg1] := by
    rw [hst1, codex_step_response_some fileStem now ids st ev payload msg1
      hty hpay hmsg1]
    by_cases hdup : codex_is_duplicate (codex_step_meta fileStem st).messages
        msg1 = true
    · left
      rw [if_pos hdup]
      exact ⟨rfl, hdup⟩
    · right
      rw [if_neg hdup]
  -- the second occurrence is always a duplicate of the accepted last
  have hdup2 : codex_is_duplicate (codex_step_meta fileStem st1).messages
      msg2 = true := by
    rcases h1 with ⟨he, hdup1⟩ | he
    · obtain ⟨last, hlast, hr, hc⟩ := codex_is_duplicate_elim _ _ hdup1
      apply codex_is_duplicate_intro _ _ last
      · rw [codex_step_meta_messages', he]
        exact hlast
      · rw [hfields.1]
        exact hr
      · rw [hfields.2]
        exact hc
    · apply codex_is_duplicate_intro _ _ msg1
      · rw [codex_step_meta_messages', he]
        exact List.getLast?_concat _
      · exact hfields.1.symm
      · exact hfields.2.symm
  rw [codex_step_response_some fileStem now ids st1 ev payload msg2
    hty hpay hmsg2, if_pos hdup2]
  exact codex_step_meta_messages' fileStem st1

/-- C9: in the codex parser, two consecutive raw events with identical
role and identical normalized content yield exactly one message (second
conjunct: the general session-level statement over any prefix); an event
whose parsed role and content match the immediately preceding accepted
message is dropped (first conjunct: the step-level mechanism). -/
theorem c9_adjacent_duplicate_suppression :
    (∀ (fileStem : Str) (now : Timestamp) (ids : Nat → Str)
      (st : CodexFoldState) (ev : CodexEvent) (payload : CodexPayload)
      (msg last : ChatMessage),
      ev.event_type = ("response_item").data →
      ev.payload = some payload →
      codex_parse_response_item now (ids (codex_step_meta fileStem st).nextId)
        payload ev.timestamp = some msg →
      st.messages.getLast? = some last →
      last.role = msg.role → last.content = msg.content →
      (codex_step fileStem now ids st ev).messages = st.messages) ∧
    (∀ (fileStem : Str) (now : Timestamp) (ids : Nat → Str)
      (pre : List (Option CodexEvent)) (ev : CodexEvent)
      (payload : CodexPayload),
      ev.event_type = ("response_item").data →
      ev.payload = some payload →
      (∀ freshId,
        (codex_parse_response_item now freshId payload ev.timestamp).isSome
          = true) →
      (codex_parse_session fileStem now ids (pre ++ [some ev, some ev])).messages
        = (codex_parse_session fileStem now ids (pre ++ [some ev])).messages) := by
  constructor
  · intro fileStem now ids st ev payload msg last hty hpay hmsg hlast hr hc
    rw [codex_step_response_some fileStem now ids st ev payload msg
      hty hpay hmsg]
    have hdup : codex_is_duplicate (codex_step_meta fileStem st).messages msg
        = true := by
      apply codex_is_duplicate_intro _ _ last _ hr hc
      rw [codex_step_meta_messages']
      exact hlast
    rw [if_pos hdup]
    exact codex_step_meta_messages' fileStem st
  · intro fileStem now ids pre ev payload hty hpay hsome
    show (codex_run fileStem now ids (pre ++ [some ev, some ev])
        ⟨[], [], now, [], 0⟩).messages
      = (codex_run fileStem now ids (pre ++ [some ev])
        ⟨[], [], now, [], 0⟩).messages
    rw [codex_run_append, codex_run_append]
    rw [codex_run, codex_run, codex_run, codex_run, codex_run]
    exact codex_step_twice fileStem now ids _ ev payload hty hpay hsome

/-- C9 witness: a concrete codex log consisting of the same user event
twice yields a single message, equal to the session parsed from the event
occurring once. -/
theorem c9_adjacent_duplicate_suppression_witness :
    (codex_parse_session (("f").data) 0 (fun n => (toString n).data)
      ([] ++ [some ⟨("response_item").data, some 3,
        some ⟨some (("user").data), none,
          some [⟨("input_text").data, some (("hello").data)⟩]⟩⟩,
        some ⟨("response_item").data, some 3,
        some ⟨some (("user").data), none,
          some [⟨("input_text").data, some (("hello").data)⟩]⟩⟩])).messages
      = (codex_parse_session (("f").data) 0 (fun n => (toString n).data)
        ([] ++ [some ⟨("response_item").data, some 3,
          some ⟨some (("user").data), none,
            some [⟨("input_text").data, some (("hello").data)⟩]⟩⟩])).messages :=
  c9_adjacent_duplicate_suppression.2 (("f").data) 0 (fun n => (toString n).data)
    [] ⟨("response_item").data, some 3,
      some ⟨some (("user").data), none,
        some [⟨("input_text").data, some (("hello").data)⟩]⟩⟩
    ⟨some (("user").data), none,
      some [⟨("input_text").data, some (("hello").data)⟩]⟩
    rfl rfl (fun _freshId => rfl)

/-! ## Decimal rendering and parsing of counters -/

def digitChar (d : Nat) : Char :=
  match d with
  | 0 => '0' | 1 => '1' | 2 => '2' | 3 => '3' | 4 => '4'
  | 5 => '5' | 6 => '6' | 7 => '7' | 8 => '8' | _ => '9'

/-- Decimal rendering with explicit fuel so that evaluation stays
structural; `natStr` always supplies enough fuel. -/
def natStrAux : Nat → Nat → Str
  | 0, _ => []
  | fuel + 1, n =>
    if n < 10 then [digitChar n]
    else natStrAux fuel (n / 10) ++ [digitChar (n % 10)]

/-- Decimal rendering of a Nat, as the Rust Display of an integer. -/
def natStr (n : Nat) : Str := natStrAux (n + 1) n

def charDigit? (c : Char) : Option Nat :=
  if 48 ≤ c.toNat ∧ c.toNat ≤ 57 then some (c.toNat - 48) else none

def parseDigitsAux (acc : Nat) : Str → Option Nat
  | [] => some acc
  | c :: r =>
    match charDigit? c with
    | some d => parseDigitsAux (acc * 10 + d) r
    | none => none

/-- The digit-run acceptance of `str::parse::<usize>`: nonempty, digits
only, value within 64 bits. -/
def parseUsizeBody (t : Str) : Option Nat :=
  if t = [] then none
  else
    match parseDigitsAux 0 t with
    | some v => if v < 18446744073709551616 then some v else none
    | none => none

/-- Rust `str::parse::<usize>`: an optional leading plus sign, then a
nonempty digit string whose value fits in 64 bits. -/
def parseUsize (s : Str) : Option Nat :=
  if s.head? = some '+' then parseUsizeBody (s.drop 1) else parseUsizeBody s

/-! ## Frontmatter parsing (src/exporter/frontmatter.rs) -/

structure Frontmatter where
  session_id : Option Str
  provider : Option Str
  message_count : Option Nat
deriving DecidableEq

/-- The fixed 2048-byte read window of `parse_frontmatter`, with
`String::from_utf8_lossy` semantics at the cut: a character split by the
byte boundary becomes one replacement character. -/
def takeBytesLossy (n : Nat) (s : Str) : Str :=
  match n, s with
  | 0, _ => []
  | _, [] => []
  | n + 1, c :: r =>
    if c.utf8Size ≤ n + 1 then c :: takeBytesLossy (n + 1 - c.utf8Size) r
    else ['�']

/-- Rust `str::strip_prefix`. -/
def dropPre (p s : Str) : Option Str :=
  if p.isPrefixOf s then some (s.drop p.length) else none

/-- One line of the frontmatter scan (src/exporter/frontmatter.rs lines 32
to 43): trim, then try the three recognized keys in order. -/
def fmStep (fm : Frontmatter) (line : Str) : Frontmatter :=
  match dropPre (("session_id:").data) (trimStr line) with
  | some val => { fm with session_id := some (trimStr val) }
  | none =>
    match dropPre (("provider:").data) (trimStr line) with
    | some val => { fm with provider := some (trimStr val) }
    | none =>
      match dropPre (("message_count:").data) (trimStr line) with
      | some val =>
        match parseUsize (trimStr val) with
        | some c => { fm with message_count := some c }
        | none => fm
      | none => fm

/-- src/exporter/frontmatter.rs `parse_frontmatter` on file content (the
file read itself is modelled away; an unreadable file never reaches this
function). -/
def parse_frontmatter (content : Str) : Frontmatter :=
  match dropPre (("---").data) (takeBytesLossy 2048 content) with
  | some stripped =>
    match findSub (("---").data) stripped with
    | some endIdx =>
      (linesOf (stripped.take endIdx)).foldl fmStep ⟨none, none, none⟩
    | none => ⟨none, none, none⟩
  | none => ⟨none, none, none⟩

/-! ## Markdown generation (src/exporter/markdown.rs) -/

/-- The RFC 3339 rendering of a timestamp, abstracted to its decimal
seconds value: every statement below depends only on this being a nonempty
digit string (in particular free of newlines and of runs of hyphens, as
the real rendering also is). -/
def rfc3339 (t : Timestamp) : Str := natStr t

/-- The `%Y-%m-%d %H:%M:%S UTC` rendering of `format_datetime`, abstracted
like `rfc3339`. -/
def format_datetime (t : Timestamp) : Str := natStr t ++ (" UTC").data

/-- The filesystem-safe `%Y-%m-%d_%H-%M-%SZ` filename timestamp,
abstracted like `rfc3339`. -/
def filename_timestamp (t : Timestamp) : Str := natStr t ++ ("Z").data

def role_emoji : MessageRole → Str
  | MessageRole.User => ("👤").data
  | MessageRole.Assistant => ("🤖").data
  | MessageRole.System => ("⚙️").data

def role_name : MessageRole → Str
  | MessageRole.User => ("User").data
  | MessageRole.Assistant => ("Assistant").data
  | MessageRole.System => ("System").data

/-- src/exporter/markdown.rs `format_message`: header line, body, optional
tools list, optional collapsible thoughts block. -/
def format_message (m : ChatMessage) : Str :=
  ("## ").data ++ role_emoji m.role ++ (" ").data ++ role_name m.role
    ++ (" (").data ++ format_datetime m.timestamp ++ (")\n\n").data
  ++ m.content ++ ("\n").data
  ++ (if m.metadata.tool_calls = [] then []
      else ("\n**Tools Used:**\n").data
        ++ (m.metadata.tool_calls.map
            (fun t => ("- `").data ++ t ++ ("`\n").data)).flatten)
  ++ (if m.metadata.thoughts = [] then []
      else ("\n<details>\n<summary>💭 Thoughts</summary>\n\n").data
        ++ (m.metadata.thoughts.map
            (fun th => ("- ").data ++ th ++ ("\n").data)).flatten
        ++ ("\n</details>\n").data)

/-- The optional total token count of the metadata block: sum over
messages carrying usage of input plus output tokens. -/
def total_tokens (s : ChatSession) : Nat :=
  ((s.messages.filterMap (fun m => m.metadata.tokens)).map
    (fun t => t.input + t.output)).sum

/-- The key-value lines of the metadata block, in writing order. -/
def fmLines (s : ChatSession) : List Str :=
  [("provider: ").data ++ s.provider,
   ("session_id: ").data ++ s.session_id,
   ("project: ").data ++ s.project_path,
   ("started_at: ").data ++ rfc3339 s.started_at,
   ("updated_at: ").data ++ rfc3339 s.updated_at,
   ("message_count: ").data ++ natStr s.messages.length]
  ++ (if total_tokens s > 0 then
       [("total_tokens: ").data ++ natStr (total_tokens s)]
     else [])

/-- The delimited metadata block written by `generate_markdown` (lines 12
to 39). -/
def frontmatterText (s : ChatSession) : Str :=
  ("---\n").data
  ++ ((fmLines s).map (fun l => l ++ ['\n'])).flatten
  ++ ("---\n\n").data

/-- The rendered transcript blocks of a message list, each followed by a
blank line (as both `generate_markdown` and `append_messages` write
them). -/
def renderedBlocks (msgs : List ChatMessage) : Str :=
  (msgs.map (fun m => format_message m ++ ("\n\n").data)).flatten

/-- src/exporter/markdown.rs `generate_markdown`: metadata block, title
heading, then every message block.  `none` models the `extract_title`
panic (see C10). -/
def generate_markdown (s : ChatSession) : Option Str :=
  (extract_title s.messages).map (fun title =>
    frontmatterText s ++ ("# ").data ++ title ++ ("\n\n").data
      ++ renderedBlocks s.messages)

/-! ## Sync state (src/session/state.rs, src/session/tracker.rs) -/

structure SessionState where
  session_id : Str
  provider : Str
  file_path : Str
  markdown_path : Str
  synced_message_count : Nat
  last_sync_time : Timestamp
deriving DecidableEq

/-- The per-project map from session id to sync state; the HashMap is
modelled as an association list whose insert replaces the existing
binding. -/
structure ProjectState where
  sessions : List (Str × SessionState)
deriving DecidableEq

def ProjectState.get_session (st : ProjectState) (sid : Str) :
    Option SessionState :=
  (st.sessions.find? (fun p => p.1 == sid)).map (fun p => p.2)

def ProjectState.upsert_session (st : ProjectState) (s : SessionState) :
    ProjectState :=
  ⟨(s.session_id, s) :: st.sessions.filter (fun p => !(p.1 == s.session_id))⟩

def ProjectState.get_synced_count (st : ProjectState) (sid : Str) : Nat :=
  ((st.get_session sid).map (fun s => s.synced_message_count)).getD 0

/-- `SessionTracker::update_session` (src/session/tracker.rs lines 64 to
86). -/
def update_session (providerName : Str) (now : Timestamp) (st : ProjectState)
    (session_id file_path markdown_path : Str) (synced_count : Nat) :
    ProjectState :=
  st.upsert_session
    ⟨session_id, providerName, file_path, markdown_path, synced_count, now⟩

/-! ## Filesystem model -/

/-- The output directory as a mapping from path to file content. -/
abbrev Fs := List (Str × Str)

def Fs.lookup (fs : Fs) (p : Str) : Option Str :=
  (fs.find? (fun e => e.1 == p)).map (fun e => e.2)

def Fs.write (fs : Fs) (p : Str) (content : Str) : Fs :=
  (p, content) :: fs.filter (fun e => !(e.1 == p))

def Fs.existsFile (fs : Fs) (p : Str) : Bool := (fs.lookup p).isSome

/-- src/exporter/markdown.rs `create_markdown_file`: render the whole
session (the render may panic, see C10) and overwrite the file. -/
def create_markdown_file (fs : Fs) (path : Str) (session : ChatSession) :
    Option Fs :=
  (generate_markdown session).map (fun content => fs.write path content)

/-- src/exporter/markdown.rs `append_messages`: open for append (creating
an absent file) and write each rendered block. -/
def append_messages (fs : Fs) (path : Str) (msgs : List ChatMessage) : Fs :=
  fs.write path (((fs.lookup path).getD []) ++ renderedBlocks msgs)

/-- Bool test for the `.md` extension of the restore scan. -/
def hasMdExt (p : Str) : Bool := (("dm.").data).isPrefixOf p.reverse

/-- `SessionTracker::restore_from_disk` (src/session/tracker.rs lines 111
to 154) over the directory listing: for every readable `.md` artifact
whose frontmatter carries a session id, insert a recovered state with
unknown source path and the current instant as last sync time. -/
def restore_from_disk (providerName : Str) (now : Timestamp)
    (files : List (Str × Str)) : ProjectState :=
  files.foldl
    (fun acc pf =>
      if hasMdExt pf.1 then
        match (parse_frontmatter pf.2).session_id with
        | some sid =>
          acc.upsert_session
            ⟨sid, ((parse_frontmatter pf.2).provider).getD providerName,
             [], pf.1, ((parse_frontmatter pf.2).message_count).getD 0, now⟩
        | none => acc
      else acc)
    ⟨[]⟩

/-! ## Synchronizer (src/synchronizer.rs) -/

inductive SyncStatus
  | Synced (new_messages : Nat)
  | UpToDate
  | Skipped
  | Failed (reason : Str)
deriving DecidableEq

/-- Outcome oracles for the three I/O steps of one `sync_session` call:
`none` is success, `some e` the propagated error display string. -/
structure IoSpec where
  ensureDirError : Option Str
  createError : Option Str
  appendError : Option Str
deriving DecidableEq

def ioOk : IoSpec := ⟨none, none, none⟩

/-- The synchronizer configuration: the provider name and the resolved
output directory (`get_waylog_dir`, an external path collaborator). -/
structure Synchronizer where
  providerName : Str
  waylogDir : Str
deriving DecidableEq

/-- The output path composed for a new session (src/synchronizer.rs lines
73 to 85). -/
def new_markdown_path (S : Synchronizer) (session : ChatSession) : Str :=
  S.waylogDir ++ ("/").data
  ++ filename_timestamp session.started_at ++ ("-").data
  ++ S.providerName ++ ("-").data
  ++ (match session.messages.find?
        (fun m => decide (m.role = MessageRole.User)) with
      | some m => slugify m.content
      | none => session.session_id)
  ++ (".md").data

/-- Steps 4 to 9 of the decision procedure with the already-reset synced
count (src/synchronizer.rs lines 93 to 140). -/
def sync_session_go (S : Synchronizer) (session : ChatSession)
    (st : ProjectState) (fs : Fs) (io : IoSpec) (sessionPath : Str)
    (now : Timestamp) (markdown_path : Str) (synced : Nat) :
    Option (Except Str SyncStatus × ProjectState × Fs) :=
  if session.messages.length ≤ synced then
    some (Except.ok SyncStatus.UpToDate, st, fs)
  else if session.messages.drop synced = [] then
    some (Except.ok SyncStatus.UpToDate, st, fs)
  else
    match io.ensureDirError with
    | some e => some (Except.error e, st, fs)
    | none =>
      if synced = 0 then
        match generate_markdown session with
        | none => none
        | some content =>
          match io.createError with
          | some e => some (Except.error e, st, fs)
          | none =>
            some (Except.ok
              (SyncStatus.Synced (session.messages.drop synced).length),
              update_session S.providerName now st session.session_id
                sessionPath markdown_path session.messages.length,
              fs.write markdown_path content)
      else
        match io.appendError with
        | some e => some (Except.error e, st, fs)
        | none =>
          some (Except.ok
            (SyncStatus.Synced (session.messages.drop synced).length),
            update_session S.providerName now st session.session_id
              sessionPath markdown_path session.messages.length,
            append_messages fs markdown_path (session.messages.drop synced))

/-- Step 3 continued: the force and missing-artifact reset
(src/synchronizer.rs lines 88 to 91). -/
def sync_session_decide (S : Synchronizer) (session : ChatSession)
    (st : ProjectState) (fs : Fs) (io : IoSpec) (sessionPath : Str)
    (force : Bool) (now : Timestamp) (markdown_path : Str) (synced0 : Nat) :
    Option (Except Str SyncStatus × ProjectState × Fs) :=
  sync_session_go S session st fs io sessionPath now markdown_path
    (if force = true ∨ (fs.existsFile markdown_path = false ∧ 0 < synced0)
     then 0 else synced0)

/-- `Synchronizer::sync_session` (src/synchronizer.rs lines 56 to 141).
The result is `none` when the underlying render panics (see C10);
otherwise `some` of the Rust `Result` together with the updated state and
filesystem. -/
def sync_session (S : Synchronizer) (parseResult : Except Str ChatSession)
    (st : ProjectState) (fs : Fs) (io : IoSpec) (sessionPath : Str)
    (force : Bool) (now : Timestamp) :
    Option (Except Str SyncStatus × ProjectState × Fs) :=
  match parseResult with
  | Except.error e =>
    some (Except.ok (SyncStatus.Failed ((("Parse error: ").data) ++ e)), st, fs)
  | Except.ok session =>
    if session.messages = [] then
      some (Except.ok SyncStatus.Skipped, st, fs)
    else
      match st.get_session session.session_id with
      | some s =>
        sync_session_decide S session st fs io sessionPath force now
          s.markdown_path s.synced_message_count
      | none =>
        sync_session_decide S session st fs io sessionPath force now
          (new_markdown_path S session) 0

/-- One entry of a bulk pass: the file path, the parse result of that
file, and the I/O outcomes of its sync attempt. -/
structure SyncFile where
  path : Str
  parseResult : Except Str ChatSession
  io : IoSpec

/-- `Synchronizer::sync_all` (src/synchronizer.rs lines 40 to 53): run the
per-file procedure sequentially, converting a propagated error into a
`Failed` outcome, one outcome per file. -/
def sync_all (S : Synchronizer) (force : Bool) (now : Timestamp) :
    List SyncFile → ProjectState → Fs →
    Option (List (Str × SyncStatus) × ProjectState × Fs)
  | [], st, fs => some ([], st, fs)
  | f :: rest, st, fs =>
    match sync_session S f.parseResult st fs f.io f.path force now with
    | none => none
    | some (Except.ok status, st2, fs2) =>
      (sync_all S force now rest st2 fs2).map
        (fun r => ((f.path, status) :: r.1, r.2))
    | some (Except.error e, st2, fs2) =>
      (sync_all S force now rest st2 fs2).map
        (fun r => ((f.path, SyncStatus.Failed e) :: r.1, r.2))

/-! ## C3: force resync rewrites the artifact from scratch -/

theorem upsert_get_session (st : ProjectState) (e : SessionState) :
    (st.upsert_session e).get_session e.session_id = some e := by
  rw [ProjectState.upsert_session, ProjectState.get_session]
  simp [List.find?]

theorem update_session_get_synced_count (providerName : Str)
    (now : Timestamp) (st : ProjectState)
    (session_id file_path markdown_path : Str) (synced_count : Nat) :
    (update_session providerName now st session_id file_path markdown_path
      synced_count).get_synced_count session_id = synced_count := by
  rw [update_session, ProjectState.get_synced_count]
  have h2 : (st.upsert_session ⟨session_id, providerName, file_path,
      markdown_path, synced_count, now⟩).get_session session_id
      = some ⟨session_id, providerName, file_path, markdown_path,
        synced_count, now⟩ :=
    upsert_get_session st _
  rw [h2]
  rfl

theorem sync_session_ok_found (S : Synchronizer) (session : ChatSession)
    (st : ProjectState) (fs : Fs) (io : IoSpec) (sessionPath : Str)
    (force : Bool) (now : Timestamp) (s0 : SessionState)
    (hne : session.messages ≠ [])
    (hstate : st.get_session session.session_id = some s0) :
    sync_session S (Except.ok session) st fs io sessionPath force now
      = sync_session_decide S session st fs io sessionPath force now
          s0.markdown_path s0.synced_message_count := by
  rw [sync_session, if_neg hne, hstate]

theorem sync_session_ok_new (S : Synchronizer) (session : ChatSession)
    (st : ProjectState) (fs : Fs) (io : IoSpec) (sessionPath : Str)
    (force : Bool) (now : Timestamp)
    (hne : session.messages ≠ [])
    (hstate : st.get_session session.session_id = none) :
    sync_session S (Except.ok session) st fs io sessionPath force now
      = sync_session_decide S session st fs io sessionPath force now
          (new_markdown_path S session) 0 := by
  rw [sync_session, if_neg hne, hstate]

theorem sync_session_go_create (S : Synchronizer) (session : ChatSession)
    (st : ProjectState) (fs : Fs) (sessionPath : Str) (now : Timestamp)
    (markdown_path : Str) (hne : session.messages ≠ []) :
    sync_session_go S session st fs ioOk sessionPath now markdown_path 0
      = (generate_markdown session).map (fun content =>
          (Except.ok (SyncStatus.Synced session.messages.length),
           update_session S.providerName now st session.session_id
             sessionPath markdown_path session.messages.length,
           fs.write markdown_path content)) := by
  rw [sync_session_go]
  rw [if_neg (fun hle =>
    hne (List.eq_nil_of_length_eq_zero (Nat.le_zero.mp hle)))]
  rw [if_neg (by simpa using hne)]
  cases hgen : generate_markdown session with
  | none => rfl
  | some content => rfl

/-- C3: with force set, a session whose recorded synced count already
equals its message count n is resynced from scratch: the decision
procedure resets the count to zero, overwrites the artifact with the full
render (metadata block, title heading, all n message blocks), reports
Synced n, and records n as the new synced count. -/
theorem c3_force_resync (S : Synchronizer) (session : ChatSession)
    (st : ProjectState) (fs : Fs) (s0 : SessionState) (sessionPath : Str)
    (now : Timestamp) (content : Str)
    (hstate : st.get_session session.session_id = some s0)
    (hsynced : s0.synced_message_count = session.messages.length)
    (hne : session.messages ≠ [])
    (hgen : generate_markdown session = some content) :
    sync_session S (Except.ok session) st fs ioOk sessionPath true now
      = some (Except.ok (SyncStatus.Synced session.messages.length),
          update_session S.providerName now st session.session_id sessionPath
            s0.markdown_path session.messages.length,
          fs.write s0.markdown_path content) ∧
    (∃ title, extract_title session.messages = some title ∧
      content = frontmatterText session ++ ("# ").data ++ title
        ++ ("\n\n").data ++ renderedBlocks session.messages) ∧
    (update_session S.providerName now st session.session_id sessionPath
      s0.markdown_path session.messages.length).get_synced_count
      session.session_id = session.messages.length := by
  refine ⟨?_, ?_, update_session_get_synced_count _ _ _ _ _ _ _⟩
  · rw [sync_session_ok_found S session st fs ioOk sessionPath true now s0
      hne hstate]
    rw [sync_session_decide, if_pos (Or.inl rfl)]
    rw [sync_session_go_create S session st fs sessionPath now
      s0.markdown_path hne]
    rw [hgen]
    rfl
  · rw [generate_markdown] at hgen
    cases ht : extract_title session.messages with
    | none => rw [ht] at hgen; exact absurd hgen (by simp)
    | some title =>
      rw [ht] at hgen
      refine ⟨title, rfl, ?_⟩
      have : some (frontmatterText session ++ ("# ").data ++ title
          ++ ("\n\n").data ++ renderedBlocks session.messages)
          = some content := by simpa using hgen
      injection this with h2
      exact h2.symm

/-- C3 witness: a concrete fully-synced one-message session, forced. -/
theorem c3_force_resync_witness :
    sync_session ⟨("claude").data, ("w").data⟩
      (Except.ok ⟨("s1").data, ("claude").data, ("/p").data, 7, 7,
        [⟨("i").data, 7, MessageRole.User, ("Hi").data, ⟨none, none, [], []⟩⟩]⟩)
      ⟨[((("s1").data),
        ⟨("s1").data, ("claude").data, ("src").data, ("w/old.md").data, 1, 3⟩)]⟩
      [((("w/old.md").data), ("old").data)] ioOk (("src2").data) true 11
      = some (Except.ok (SyncStatus.Synced 1),
          update_session (("claude").data) 11
            ⟨[((("s1").data),
              ⟨("s1").data, ("claude").data, ("src").data, ("w/old.md").data,
                1, 3⟩)]⟩
            (("s1").data) (("src2").data) (("w/old.md").data) 1,
          Fs.write [((("w/old.md").data), ("old").data)] (("w/old.md").data)
            ((generate_markdown ⟨("s1").data, ("claude").data, ("/p").data,
              7, 7, [⟨("i").data, 7, MessageRole.User, ("Hi").data,
                ⟨none, none, [], []⟩⟩]⟩).getD [])) :=
  (c3_force_resync ⟨("claude").data, ("w").data⟩
    ⟨("s1").data, ("claude").data, ("/p").data, 7, 7,
      [⟨("i").data, 7, MessageRole.User, ("Hi").data, ⟨none, none, [], []⟩⟩]⟩
    ⟨[((("s1").data),
      ⟨("s1").data, ("claude").data, ("src").data, ("w/old.md").data, 1, 3⟩)]⟩
    [((("w/old.md").data), ("old").data)]
    ⟨("s1").data, ("claude").data, ("src").data, ("w/old.md").data, 1, 3⟩
    (("src2").data) 11
    ((generate_markdown ⟨("s1").data, ("claude").data, ("/p").data, 7, 7,
      [⟨("i").data, 7, MessageRole.User, ("Hi").data,
        ⟨none, none, [], []⟩⟩]⟩).getD [])
    (by rfl) (by rfl) (by decide) (by rfl)).1

/-! ## C4: failure capture and bulk isolation -/

theorem sync_all_cons_ok (S : Synchronizer) (force : Bool) (now : Timestamp)
    (f : SyncFile) (rest : List SyncFile) (st st2 : ProjectState)
    (fs fs2 : Fs) (status : SyncStatus)
    (h : sync_session S f.parseResult st fs f.io f.path force now
      = some (Except.ok status, st2, fs2)) :
    sync_all S force now (f :: rest) st fs
      = (sync_all S force now rest st2 fs2).map
          (fun r => ((f.path, status) :: r.1, r.2)) := by
  simp only [sync_all]
  rw [h]

theorem sync_all_cons_error (S : Synchronizer) (force : Bool)
    (now : Timestamp) (f : SyncFile) (rest : List SyncFile)
    (st st2 : ProjectState) (fs fs2 : Fs) (e : Str)
    (h : sync_session S f.parseResult st fs f.io f.path force now
      = some (Except.error e, st2, fs2)) :
    sync_all S force now (f :: rest) st fs
      = (sync_all S force now rest st2 fs2).map
          (fun r => ((f.path, SyncStatus.Failed e) :: r.1, r.2)) := by
  simp only [sync_all]
  rw [h]

/-- C4 amended: a parse failure is captured by `sync_session` itself as a
`Failed` outcome with unchanged state; an I/O step failure propagates out
of `sync_session` as an error, and `sync_all` converts it into a `Failed`
outcome for that file while continuing with the remaining files, one
outcome per file. -/
theorem c4_failure_capture :
    (∀ (S : Synchronizer) (e : Str) (st : ProjectState) (fs : Fs)
      (io : IoSpec) (sessionPath : Str) (force : Bool) (now : Timestamp),
      sync_session S (Except.error e) st fs io sessionPath force now
        = some (Except.ok (SyncStatus.Failed ((("Parse error: ").data) ++ e)),
            st, fs)) ∧
    (∀ (S : Synchronizer) (force : Bool) (now : Timestamp) (f : SyncFile)
      (rest : List SyncFile) (st st2 : ProjectState) (fs fs2 : Fs) (e : Str),
      sync_session S f.parseResult st fs f.io f.path force now
        = some (Except.error e, st2, fs2) →
      sync_all S force now (f :: rest) st fs
        = (sync_all S force now rest st2 fs2).map
            (fun r => ((f.path, SyncStatus.Failed e) :: r.1, r.2))) ∧
    (∀ (S : Synchronizer) (force : Bool) (now : Timestamp)
      (files : List SyncFile) (st : ProjectState) (fs : Fs)
      (res : List (Str × SyncStatus)) (st2 : ProjectState) (fs2 : Fs),
      sync_all S force now files st fs = some (res, st2, fs2) →
      res.length = files.length) := by
  refine ⟨fun _ _ _ _ _ _ _ _ => rfl,
    fun S force now f rest st st2 fs fs2 e h =>
      sync_all_cons_error S force now f rest st st2 fs fs2 e h, ?_⟩
  intro S force now files
  induction files with
  | nil =>
    intro st fs res st2 fs2 h
    simp only [sync_all, Option.some.injEq, Prod.mk.injEq] at h
    exact congrArg List.length h.1.symm
  | cons f rest ih =>
    intro st fs res st2 fs2 h
    cases hs : sync_session S f.parseResult st fs f.io f.path force now with
    | none =>
      rw [sync_all] at h
      rw [hs] at h
      exact absurd h (by simp)
    | some r =>
      obtain ⟨er, st3, fs3⟩ := r
      cases er with
      | ok status =>
        rw [sync_all_cons_ok S force now f rest st st3 fs fs3 status hs] at h
        cases hrest : sync_all S force now rest st3 fs3 with
        | none => rw [hrest] at h; exact absurd h (by simp)
        | some r2 =>
          obtain ⟨res3, st4, fs4⟩ := r2
          rw [hrest] at h
          simp only [Option.map, Option.some.injEq, Prod.mk.injEq] at h
          rw [← h.1]
          simp only [List.length_cons]
          rw [ih st3 fs3 res3 st4 fs4 hrest]
      | error e =>
        rw [sync_all_cons_error S force now f rest st st3 fs fs3 e hs] at h
        cases hrest : sync_all S force now rest st3 fs3 with
        | none => rw [hrest] at h; exact absurd h (by simp)
        | some r2 =>
          obtain ⟨res3, st4, fs4⟩ := r2
          rw [hrest] at h
          simp only [Option.map, Option.some.injEq, Prod.mk.injEq] at h
          rw [← h.1]
          simp only [List.length_cons]
          rw [ih st3 fs3 res3 st4 fs4 hrest]

/-- C4 witness: a concrete two-file pass whose first file fails an I/O
step still yields one outcome per file, through `c4_failure_capture`. -/
theorem c4_failure_capture_witness :
    sync_all ⟨("claude").data, ("w").data⟩ false 0
      [⟨("p1").data,
        Except.ok ⟨("s").data, ("claude").data, ("/p").data, 0, 0,
          [⟨("i").data, 0, MessageRole.User, ("Hi").data,
            ⟨none, none, [], []⟩⟩]⟩,
        ⟨none, some (("IO error: disk full").data), none⟩⟩,
       ⟨("p2").data, Except.error (("bad json").data), ioOk⟩]
      ⟨[]⟩ []
      = some ([((("p1").data), SyncStatus.Failed (("IO error: disk full").data)),
          ((("p2").data),
            SyncStatus.Failed ((("Parse error: ").data) ++ ("bad json").data))],
          ⟨[]⟩, []) ∧
    ([((("p1").data), SyncStatus.Failed (("IO error: disk full").data)),
      ((("p2").data),
        SyncStatus.Failed ((("Parse error: ").data) ++ ("bad json").data))]
      : List (Str × SyncStatus)).length
      = ([⟨("p1").data,
          Except.ok ⟨("s").data, ("claude").data, ("/p").data, 0, 0,
            [⟨("i").data, 0, MessageRole.User, ("Hi").data,
              ⟨none, none, [], []⟩⟩]⟩,
          ⟨none, some (("IO error: disk full").data), none⟩⟩,
         ⟨("p2").data, Except.error (("bad json").data), ioOk⟩]
        : List SyncFile).length := by
  constructor
  · rfl
  · exact c4_failure_capture.2.2 ⟨("claude").data, ("w").data⟩ false 0
      _ ⟨[]⟩ []
      [((("p1").data), SyncStatus.Failed (("IO error: disk full").data)),
       ((("p2").data),
         SyncStatus.Failed ((("Parse error: ").data) ++ ("bad json").data))]
      ⟨[]⟩ [] (by rfl)

/-- C4 counterexample: an I/O step failure (artifact creation) is not
captured as a `Failed` outcome of `sync_session`; it escapes as a
propagated error (which only the bulk pass converts). -/
theorem c4_counterexample :
    sync_session ⟨("claude").data, ("w").data⟩
      (Except.ok ⟨("s").data, ("claude").data, ("/p").data, 0, 0,
        [⟨("i").data, 0, MessageRole.User, ("Hi").data, ⟨none, none, [], []⟩⟩]⟩)
      ⟨[]⟩ [] ⟨none, some (("IO error: disk full").data), none⟩ (("p1").data)
      false 0
      = some (Except.error (("IO error: disk full").data), ⟨[]⟩, []) ∧
    sync_session ⟨("claude").data, ("w").data⟩
      (Except.ok ⟨("s").data, ("claude").data, ("/p").data, 0, 0,
        [⟨("i").data, 0, MessageRole.User, ("Hi").data, ⟨none, none, [], []⟩⟩]⟩)
      ⟨[]⟩ [] ⟨none, some (("IO error: disk full").data), none⟩ (("p1").data)
      false 0
      ≠ some (Except.ok (SyncStatus.Failed (("IO error: disk full").data)),
          ⟨[]⟩, []) := by
  constructor
  · rfl
  · intro h
    have h2 : (some (Except.error (("IO error: disk full").data), (⟨[]⟩ :
        ProjectState), ([] : Fs)) :
        Option (Except Str SyncStatus × ProjectState × Fs))
        = some (Except.ok (SyncStatus.Failed (("IO error: disk full").data)),
            ⟨[]⟩, []) := h
    injection h2 with h3
    exact Except.noConfusion (congrArg Prod.fst h3)

/-! ## C2: resume from a recovered artifact -/

theorem existsFile_cons_self (p c : Str) (rest : Fs) :
    Fs.existsFile ((p, c) :: rest) p = true := by
  simp [Fs.existsFile, Fs.lookup, List.find?]

theorem lookup_cons_self (p c : Str) (rest : Fs) :
    Fs.lookup ((p, c) :: rest) p = some c := by
  simp [Fs.lookup, List.find?]

theorem restore_single (P : Str) (now : Timestamp)
    (artPath artContent sid : Str) (provOpt : Option Str) (mc : Option Nat)
    (hmd : hasMdExt artPath = true)
    (hfm : parse_frontmatter artContent = ⟨some sid, provOpt, mc⟩) :
    restore_from_disk P now [(artPath, artContent)]
      = ProjectState.upsert_session ⟨[]⟩
          ⟨sid, provOpt.getD P, [], artPath, mc.getD 0, now⟩ := by
  rw [restore_from_disk]
  simp only [List.foldl_cons, List.foldl_nil]
  rw [if_pos hmd, hfm]

theorem sync_session_go_append (S : Synchronizer) (session : ChatSession)
    (st : ProjectState) (fs : Fs) (sessionPath : Str) (now : Timestamp)
    (markdown_path : Str) (synced : Nat)
    (hlt : synced < session.messages.length) (hnz : synced ≠ 0) :
    sync_session_go S session st fs ioOk sessionPath now markdown_path synced
      = some (Except.ok
          (SyncStatus.Synced (session.messages.drop synced).length),
          update_session S.providerName now st session.session_id sessionPath
            markdown_path session.messages.length,
          append_messages fs markdown_path (session.messages.drop synced)) := by
  rw [sync_session_go]
  rw [if_neg (by omega)]
  rw [if_neg (by
    intro hd
    have := List.drop_eq_nil_iff.mp hd
    omega)]
  simp only [ioOk]
  rw [if_neg hnz]

/-- C2: a fresh state store built solely from one artifact whose metadata
block records a session id and message_count 3, followed by one sync pass
over the same session now holding 5 messages, recovers synced count 3,
appends exactly the 2 messages at indices 3 and 4 to the existing artifact
content, and records a synced count of 5. -/
theorem c2_resume_after_restart (S : Synchronizer) (session : ChatSession)
    (artPath artContent sid sessionPath : Str) (provOpt : Option Str)
    (now now2 : Timestamp)
    (hmd : hasMdExt artPath = true)
    (hfm : parse_frontmatter artContent = ⟨some sid, provOpt, some 3⟩)
    (hsid : session.session_id = sid)
    (hlen : session.messages.length = 5) :
    (restore_from_disk S.providerName now [(artPath, artContent)]).get_session
      sid = some ⟨sid, provOpt.getD S.providerName, [], artPath, 3, now⟩ ∧
    sync_session S (Except.ok session)
      (restore_from_disk S.providerName now [(artPath, artContent)])
      [(artPath, artContent)] ioOk sessionPath false now2
      = some (Except.ok (SyncStatus.Synced 2),
          update_session S.providerName now2
            (restore_from_disk S.providerName now [(artPath, artContent)])
            sid sessionPath artPath 5,
          [(artPath, artContent ++ renderedBlocks (session.messages.drop 3))]) ∧
    (session.messages.drop 3).length = 2 ∧
    (update_session S.providerName now2
      (restore_from_disk S.providerName now [(artPath, artContent)])
      sid sessionPath artPath 5).get_synced_count sid = 5 := by
  have hrestore := restore_single S.providerName now artPath artContent sid
    provOpt (some 3) hmd hfm
  have hget : (restore_from_disk S.providerName now
      [(artPath, artContent)]).get_session sid
      = some ⟨sid, provOpt.getD S.providerName, [], artPath, 3, now⟩ := by
    rw [hrestore]
    exact upsert_get_session ⟨[]⟩
      ⟨sid, provOpt.getD S.providerName, [], artPath, 3, now⟩
  have hne : session.messages ≠ [] := by
    intro hnil
    rw [hnil] at hlen
    simp at hlen
  have hdrop : (session.messages.drop 3).length = 2 := by
    rw [List.length_drop, hlen]
  refine ⟨hget, ?_, hdrop, update_session_get_synced_count _ _ _ _ _ _ _⟩
  have hstate : (restore_from_disk S.providerName now
      [(artPath, artContent)]).get_session session.session_id
      = some ⟨sid, provOpt.getD S.providerName, [], artPath, 3, now⟩ := by
    rw [hsid]
    exact hget
  rw [sync_session_ok_found S session _ _ ioOk sessionPath false now2 _ hne
    hstate]
  rw [sync_session_decide]
  rw [if_neg (by
    intro hor
    rcases hor with hf | hmiss
    · exact absurd hf (by simp)
    · rw [show (⟨sid, provOpt.getD S.providerName, [], artPath, 3, now⟩ :
        SessionState).markdown_path = artPath from rfl] at hmiss
      rw [existsFile_cons_self] at hmiss
      exact absurd hmiss.1 (by simp))]
  rw [show (⟨sid, provOpt.getD S.providerName, [], artPath, 3, now⟩ :
    SessionState).markdown_path = artPath from rfl]
  rw [show (⟨sid, provOpt.getD S.providerName, [], artPath, 3, now⟩ :
    SessionState).synced_message_count = 3 from rfl]
  rw [sync_session_go_append S session _ _ sessionPath now2 artPath 3
    (by omega) (by omega)]
  rw [hdrop, hsid]
  rw [append_messages, lookup_cons_self]
  simp only [Option.getD_some]
  rw [show Fs.write [(artPath, artContent)] artPath
      (artContent ++ renderedBlocks (session.messages.drop 3))
      = [(artPath, artContent ++ renderedBlocks (session.messages.drop 3))]
    by simp [Fs.write]]
  rw [hlen]

/-! ## C1 machinery: decimal round trip -/

theorem digitChar_bounds (d : Nat) :
    48 ≤ (digitChar d).toNat ∧ (digitChar d).toNat ≤ 57 := by
  rcases d with _|_|_|_|_|_|_|_|_|d
  · exact ⟨by decide, by decide⟩
  · exact ⟨by decide, by decide⟩
  · exact ⟨by decide, by decide⟩
  · exact ⟨by decide, by decide⟩
  · exact ⟨by decide, by decide⟩
  · exact ⟨by decide, by decide⟩
  · exact ⟨by decide, by decide⟩
  · exact ⟨by decide, by decide⟩
  · exact ⟨by decide, by decide⟩
  · exact ⟨(by decide : 48 ≤ ('9' : Char).toNat),
      (by decide : ('9' : Char).toNat ≤ 57)⟩

theorem charDigit?_digitChar (d : Nat) (h : d < 10) :
    charDigit? (digitChar d) = some d := by
  interval_cases d <;> rfl

theorem natStrAux_ne_nil (fuel n : Nat) : natStrAux (fuel + 1) n ≠ [] := by
  rw [natStrAux]
  by_cases h : n < 10
  · rw [if_pos h]; simp
  · rw [if_neg h]; simp

theorem natStrAux_all_digits (fuel : Nat) :
    ∀ n c, c ∈ natStrAux fuel n → 48 ≤ c.toNat ∧ c.toNat ≤ 57 := by
  induction fuel with
  | zero => intro n c hc; simp [natStrAux] at hc
  | succ f ih =>
    intro n c hc
    rw [natStrAux] at hc
    by_cases h : n < 10
    · rw [if_pos h] at hc
      simp at hc
      rw [hc]
      exact digitChar_bounds n
    · rw [if_neg h] at hc
      rw [List.mem_append] at hc
      rcases hc with hc | hc
      · exact ih _ _ hc
      · simp at hc
        rw [hc]
        exact digitChar_bounds (n % 10)

theorem natStr_ne_nil (n : Nat) : natStr n ≠ [] := natStrAux_ne_nil n n

theorem natStr_all_digits (n : Nat) :
    ∀ c ∈ natStr n, 48 ≤ c.toNat ∧ c.toNat ≤ 57 :=
  fun c hc => natStrAux_all_digits (n + 1) n c hc

theorem parseDigitsAux_append (a : Str) :
    ∀ (acc : Nat) (b : Str),
      parseDigitsAux acc (a ++ b)
        = match parseDigitsAux acc a with
          | some v => parseDigitsAux v b
          | none => none := by
  induction a with
  | nil => intro acc b; rfl
  | cons c t ih =>
    intro acc b
    rw [List.cons_append, parseDigitsAux, parseDigitsAux]
    cases hd : charDigit? c with
    | none => rfl
    | some d => exact ih _ b

theorem parseDigitsAux_single (acc d : Nat) (h : d < 10) :
    parseDigitsAux acc [digitChar d] = some (acc * 10 + d) := by
  simp only [parseDigitsAux, charDigit?_digitChar d h]

theorem parseDigitsAux_natStrAux (fuel : Nat) :
    ∀ n, n < fuel → parseDigitsAux 0 (natStrAux fuel n) = some n := by
  induction fuel with
  | zero => intro n h; omega
  | succ f ih =>
    intro n h
    rw [natStrAux]
    by_cases h10 : n < 10
    · rw [if_pos h10, parseDigitsAux_single 0 n h10]
      simp
    · rw [if_neg h10]
      rw [parseDigitsAux_append]
      have hdiv : n / 10 < n := Nat.div_lt_self (by omega) (by omega)
      rw [ih (n / 10) (by omega)]
      show parseDigitsAux (n / 10) [digitChar (n % 10)] = some n
      rw [parseDigitsAux_single (n / 10) (n % 10) (by omega)]
      congr 1
      omega

theorem parseUsize_natStr (n : Nat) (hn : n < 18446744073709551616) :
    parseUsize (natStr n) = some n := by
  rw [parseUsize]
  rw [if_neg (by
    intro hplus
    cases hs : natStr n with
    | nil => exact natStr_ne_nil n hs
    | cons c t =>
      rw [hs] at hplus
      simp at hplus
      have := natStr_all_digits n c (by rw [hs]; simp)
      rw [hplus] at this
      simp at this)]
  rw [parseUsizeBody, if_neg (natStr_ne_nil n)]
  rw [show natStr n = natStrAux (n + 1) n from rfl,
    parseDigitsAux_natStrAux (n + 1) n (by omega)]
  show (if n < 18446744073709551616 then some n else none) = some n
  rw [if_pos hn]

/-! ## C1 machinery: locating the closing delimiter -/

theorem isPrefixOf_append_self (pat b : Str) :
    pat.isPrefixOf (pat ++ b) = true := by
  rw [ List.isPrefixOf_iff_prefix]
  exact List.prefix_append pat b

theorem findSub_of_isPrefixOf (pat s : Str) (h : pat.isPrefixOf s = true) :
    findSub pat s = some 0 := by
  cases s with
  | nil => simp only [findSub, if_pos h]
  | cons c t => simp only [findSub, if_pos h]

theorem findSub_position (pat b : Str) :
    ∀ a : Str,
      (∀ i, i < a.length →
        pat.isPrefixOf ((a ++ (pat ++ b)).drop i) = false) →
      findSub pat (a ++ (pat ++ b)) = some a.length := by
  intro a
  induction a with
  | nil =>
    intro _
    simp only [List.nil_append, List.length_nil]
    exact findSub_of_isPrefixOf pat (pat ++ b) (isPrefixOf_append_self pat b)
  | cons c t ih =>
    intro h
    have h0 : pat.isPrefixOf (c :: (t ++ (pat ++ b))) = false := by
      have := h 0 (by simp)
      simpa using this
    have hrest : findSub pat (t ++ (pat ++ b)) = some t.length := by
      apply ih
      intro i hi
      have := h (i + 1) (by simpa using Nat.succ_lt_succ hi)
      simpa using this
    simp only [List.cons_append, findSub]
    rw [if_neg (by simp [h0])]
    simp only [List.append_eq]
    rw [hrest]
    simp

/-- An occurrence that starts inside a block and cannot cross a barrier
character absent from the pattern stays inside the block. -/
theorem isPrefixOf_append_cons_false (pat u : Str) (c : Char) (w : Str)
    (hc : c ∈ pat → False) (hfit : pat.isPrefixOf u = false) :
    pat.isPrefixOf (u ++ c :: w) = false := by
  by_contra hcon
  rw [Bool.not_eq_false, List.isPrefixOf_iff_prefix] at hcon
  by_cases hlen : pat.length ≤ u.length
  · have hu : pat <+: u := by
      have h2 := List.prefix_iff_eq_take.mp hcon
      rw [List.take_append_of_le_length hlen] at h2
      rw [h2]
      exact List.take_prefix _ _
    have htrue : pat.isPrefixOf u = true := by
      rw [ List.isPrefixOf_iff_prefix]
      exact hu
    rw [htrue] at hfit
    exact Bool.noConfusion hfit
  · have h1 : (u ++ [c]) <+: (u ++ c :: w) := by
      rw [show u ++ c :: w = (u ++ [c]) ++ w by simp]
      exact List.prefix_append _ _
    have h3 : (u ++ [c]).length ≤ pat.length := by
      simp only [List.length_append, List.length_cons, List.length_nil]
      omega
    have hpre := List.prefix_of_prefix_length_le h1 hcon h3
    exact hc (hpre.subset (by simp))

theorem no_occ_of_not_contains (pat v : Str) (h : containsSub v pat = false) :
    ∀ i, pat.isPrefixOf (v.drop i) = false := by
  induction v with
  | nil =>
    intro i
    rw [List.drop_nil]
    rw [containsSub] at h
    cases hp : pat with
    | nil => rw [hp] at h; simp [findSub] at h
    | cons c t => rfl
  | cons c t ih =>
    rw [containsSub, findSub] at h
    intro i
    by_cases hp : pat.isPrefixOf (c :: t) = true
    · rw [if_pos hp] at h
      simp at h
    · rw [Bool.not_eq_true] at hp
      rw [if_neg (by simp [hp])] at h
      cases i with
      | zero => simpa using hp
      | succ j =>
        rw [List.drop_succ_cons]
        apply ih _ j
        rw [containsSub]
        cases hf : findSub pat t with
        | none => rfl
        | some k => rw [hf] at h; simp at h

theorem no_occ_of_no_dash (v : Str) (hv : '-' ∈ v → False) :
    ∀ i, (("---").data).isPrefixOf (v.drop i) = false := by
  intro i
  cases hd : v.drop i with
  | nil => rfl
  | cons c t =>
    have hc : c ∈ v := List.drop_subset i v (by rw [hd]; simp)
    have hcne : ('-' : Char) = c → False := fun hcc => hv (hcc ▸ hc)
    show (('-' : Char) :: ('-' :: ('-' :: []))).isPrefixOf (c :: t) = false
    rw [List.isPrefixOf]
    simp only [Bool.and_eq_false_iff]
    left
    simpa using hcne

theorem line_no_occ (label value : Str) (hlab : '-' ∈ label → False)
    (hval : ∀ i, (("---").data).isPrefixOf (value.drop i) = false) :
    ∀ i, (("---").data).isPrefixOf ((label ++ value).drop i) = false := by
  intro i
  rw [List.drop_append_eq_append_drop]
  by_cases hi : i < label.length
  · cases hd : label.drop i with
    | nil =>
      have : label.length ≤ i := by
        have := congrArg List.length hd
        simp at this
        omega
      omega
    | cons c t =>
      have hc : c ∈ label := List.drop_subset i label (by rw [hd]; simp)
      have hcne : ('-' : Char) = c → False := fun hcc => hlab (hcc ▸ hc)
      show (("---").data).isPrefixOf ((c :: t) ++ value.drop (i - label.length))
        = false
      rw [List.cons_append]
      show (('-' : Char) :: ('-' :: ('-' :: []))).isPrefixOf
        (c :: (t ++ value.drop (i - label.length))) = false
      rw [List.isPrefixOf]
      simp only [Bool.and_eq_false_iff]
      left
      simpa using hcne
  · have hdrop : label.drop i = [] := List.drop_eq_nil_iff.mpr (by omega)
    rw [hdrop, List.nil_append]
    exact hval (i - label.length)

theorem lines_no_occ (suffix : Str) :
    ∀ (lines : List Str),
      (∀ l ∈ lines, ∀ i, (("---").data).isPrefixOf (l.drop i) = false) →
      ∀ i, i < ((lines.map (fun l => l ++ ['\n'])).flatten).length →
        (("---").data).isPrefixOf
          ((((lines.map (fun l => l ++ ['\n'])).flatten) ++ suffix).drop i)
          = false := by
  intro lines
  induction lines with
  | nil =>
    intro _ i hi
    simp at hi
  | cons l ls ih =>
    intro hl i hi
    simp only [List.map_cons, List.flatten_cons] at hi ⊢
    have hassoc : ((l ++ ['\n']) ++ (ls.map (fun l => l ++ ['\n'])).flatten)
        ++ suffix
        = l ++ ('\n' ::
            ((ls.map (fun l => l ++ ['\n'])).flatten ++ suffix)) := by
      simp
    rw [hassoc]
    rw [List.drop_append_eq_append_drop]
    have hub : i < l.length + 1
        + ((ls.map (fun l => l ++ ['\n'])).flatten).length := by
      have := hi
      simp only [List.length_append, List.length_cons, List.length_nil]
        at this
      omega
    by_cases hcase : i < l.length
    · rw [show i - l.length = 0 by omega, List.drop_zero]
      apply isPrefixOf_append_cons_false
      · intro hmem
        simp at hmem
      · exact hl l (by simp) i
    · by_cases hcase2 : i = l.length
      · subst hcase2
        rw [List.drop_eq_nil_iff.mpr (by omega), List.nil_append,
          Nat.sub_self, List.drop_zero]
        rfl
      · have hgt : l.length < i := by omega
        rw [List.drop_eq_nil_iff.mpr (by omega), List.nil_append]
        have hsub : i - l.length = (i - l.length - 1) + 1 := by omega
        rw [hsub, List.drop_succ_cons]
        apply ih (fun x hx => hl x (by simp [hx]))
        omega

/-! ## C1 machinery: read window, lines, trimming -/

theorem takeBytesLossy_append (p : Str) :
    ∀ (n : Nat) (q : Str), utf8Len p ≤ n →
      takeBytesLossy n (p ++ q) = p ++ takeBytesLossy (n - utf8Len p) q := by
  induction p with
  | nil =>
    intro n q _
    simp [utf8Len]
  | cons c t ih =>
    intro n q h
    rw [utf8Len_cons] at h
    have hsz : 1 ≤ c.utf8Size := Char.utf8Size_pos c
    cases n with
    | zero => omega
    | succ m =>
      rw [List.cons_append, takeBytesLossy]
      rw [if_pos (by omega)]
      rw [ih (m + 1 - c.utf8Size) q (by omega)]
      rw [utf8Len_cons, List.cons_append]
      rw [show m + 1 - (c.utf8Size + utf8Len t)
        = m + 1 - c.utf8Size - utf8Len t by omega]

theorem splitNl_line (r : Str) :
    ∀ l : Str, ('\n' ∈ l → False) →
      splitNl (l ++ '\n' :: r) = l :: splitNl r := by
  intro l
  induction l with
  | nil =>
    intro _
    rw [List.nil_append, splitNl, if_pos rfl]
  | cons c t ih =>
    intro h
    have hc : c ≠ '\n' := fun hcc => h (by rw [hcc]; simp)
    rw [List.cons_append, splitNl, if_neg hc, ih (fun hm => h (by simp [hm]))]

theorem flatten_lines_ne_nil (l : Str) (ls : List Str) :
    ((( l :: ls).map (fun x => x ++ ['\n'])).flatten) ≠ [] := by
  simp

theorem flatten_lines_getLast : ∀ (L : List Str), L ≠ [] →
    ((L.map (fun x => x ++ ['\n'])).flatten).getLast? = some '\n'
  | [], h => absurd rfl h
  | [l], _ => by
    simp only [List.map_cons, List.map_nil, List.flatten_cons,
      List.flatten_nil, List.append_nil]
    exact List.getLast?_concat l
  | l :: m :: ms, _ => by
    have hrec := flatten_lines_getLast (m :: ms) (by simp)
    simp only [List.map_cons, List.flatten_cons] at hrec ⊢
    rw [List.getLast?_append, hrec]
    rfl

theorem splitNl_flatten (L : List Str) (h : ∀ l ∈ L, '\n' ∈ l → False) :
    splitNl ((L.map (fun x => x ++ ['\n'])).flatten) = L ++ [[]] := by
  induction L with
  | nil => rfl
  | cons l ls ih =>
    simp only [List.map_cons, List.flatten_cons]
    rw [show (l ++ ['\n']) ++ (List.map (fun x => x ++ ['\n']) ls).flatten
      = l ++ ('\n' :: (List.map (fun x => x ++ ['\n']) ls).flatten) by simp]
    rw [splitNl_line _ l (h l (by simp))]
    rw [ih (fun x hx => h x (by simp [hx]))]
    rfl

theorem linesOf_flatten (L : List Str) (l0 : Str) (ls0 : List Str)
    (hL : L = l0 :: ls0)
    (hnl : ∀ l ∈ L, '\n' ∈ l → False)
    (hcr : ∀ l ∈ L, l.getLast? ≠ some '\r') :
    linesOf ((L.map (fun x => x ++ ['\n'])).flatten) = L := by
  subst hL
  rw [linesOf]
  rw [if_neg (flatten_lines_ne_nil l0 ls0)]
  rw [flatten_lines_getLast (l0 :: ls0) (by simp)]
  rw [if_pos rfl]
  rw [splitNl_flatten _ hnl]
  rw [List.dropLast_concat]
  calc List.map stripCr (l0 :: ls0)
      = List.map id (l0 :: ls0) :=
        List.map_congr_left (fun x hx => by rw [stripCr, if_neg (hcr x hx)]; rfl)
    _ = l0 :: ls0 := List.map_id _

theorem trimStr_eq_self (s : Str)
    (hh : ∀ c, s.head? = some c → isWs c = false)
    (hl : ∀ c, s.getLast? = some c → isWs c = false) : trimStr s = s := by
  rw [trimStr]
  have h1 : s.dropWhile isWs = s := by
    cases s with
    | nil => rfl
    | cons c t =>
      rw [List.dropWhile_cons, if_neg (by simp [hh c rfl])]
  rw [h1]
  have h2 : s.reverse.dropWhile isWs = s.reverse := by
    cases hr : s.reverse with
    | nil => rfl
    | cons c t =>
      rw [List.dropWhile_cons]
      have hc : s.getLast? = some c := by
        rw [← List.head?_reverse, hr]
        rfl
      rw [if_neg (by simp [hl c hc])]
  rw [h2, List.reverse_reverse]

theorem dropWhile_concat_stop (c : Char) (h : isWs c = false) :
    ∀ x : Str, ∃ u, (x ++ [c]).dropWhile isWs = u ++ [c] := by
  intro x
  induction x with
  | nil =>
    refine ⟨[], ?_⟩
    rw [List.nil_append, List.dropWhile_cons, if_neg (by simp [h])]
  | cons a t ih =>
    rw [List.cons_append, List.dropWhile_cons]
    by_cases ha : isWs a = true
    · rw [if_pos ha]
      exact ih
    · rw [if_neg (by simpa using ha)]
      exact ⟨a :: t, rfl⟩

theorem trimStr_cons_head (c : Char) (r : Str) (h : isWs c = false) :
    ∃ t, trimStr (c :: r) = c :: t := by
  rw [trimStr]
  rw [show (c :: r).dropWhile isWs = c :: r by
    rw [List.dropWhile_cons, if_neg (by simp [h])]]
  rw [show (c :: r).reverse = r.reverse ++ [c] by simp]
  obtain ⟨u, hu⟩ := dropWhile_concat_stop c h r.reverse
  rw [hu]
  exact ⟨u.reverse, by simp⟩

theorem isPrefixOf_false_head (pat s : Str) (c d : Char)
    (hp : pat.head? = some c) (hs : s.head? = some d) (hne : c = d → False) :
    pat.isPrefixOf s = false := by
  cases pat with
  | nil => simp at hp
  | cons a p' =>
    cases s with
    | nil => simp at hs
    | cons b s' =>
      have ha : a = c := by simpa using hp
      have hb : b = d := by simpa using hs
      subst ha
      subst hb
      rw [List.isPrefixOf]
      simp only [Bool.and_eq_false_iff]
      left
      simpa using hne

/-! ## C1 machinery: one step of the frontmatter line scan -/

theorem ws_false_of_digit (c : Char) (h48 : 48 ≤ c.toNat)
    (h57 : c.toNat ≤ 57) : isWs c = false := by
  simp only [isWs, Char.isWhitespace, Bool.or_eq_false_iff,
    decide_eq_false_iff_not]
  refine ⟨⟨⟨?_, ?_⟩, ?_⟩, ?_⟩ <;> (intro h; subst h; revert h48 h57; decide)

theorem getLast?_append_concat (l u : Str) (d : Char) :
    (l ++ (u ++ [d])).getLast? = some d := by
  rw [← List.append_assoc]
  exact List.getLast?_concat _

theorem exists_concat_of_ne_nil (s : Str) (h : s ≠ []) :
    ∃ u d, s = u ++ [d] := by
  rcases List.eq_nil_or_concat s with h2 | ⟨u, d, h2⟩
  · exact absurd h2 h
  · exact ⟨u, d, by rw [h2, List.concat_eq_append]⟩

theorem dropPre_some (p s v : Str) (h : dropPre p s = some v) :
    p.isPrefixOf s = true := by
  rw [dropPre] at h
  split at h
  · assumption
  · exact Option.noConfusion h

theorem dropPre_append (p x : Str) : dropPre p (p ++ x) = some x := by
  rw [dropPre, if_pos (isPrefixOf_append_self p x)]
  rw [List.drop_left]

theorem dropPre_false (p s : Str) (h : p.isPrefixOf s = false) :
    dropPre p s = none := by
  rw [dropPre, if_neg (by simp [h])]

theorem fmStep_count_preserved (fm : Frontmatter) (line : Str)
    (h : (("message_count:").data).isPrefixOf (trimStr line) = false) :
    (fmStep fm line).message_count = fm.message_count := by
  rw [fmStep]
  split
  · rfl
  · split
    · rfl
    · rw [dropPre_false _ _ h]

/-- A line whose first character survives trimming and differs from `m`
is ignored by the `message_count:` branch of the scan. -/
theorem not_mc_of_head (line : Str) (c : Char) (hhead : line.head? = some c)
    (hws : isWs c = false) (hne : ('m' : Char) = c → False) :
    (("message_count:").data).isPrefixOf (trimStr line) = false := by
  cases line with
  | nil => exact Option.noConfusion hhead
  | cons a t =>
    have ha : a = c := by simpa using hhead
    obtain ⟨r2, hr⟩ := trimStr_cons_head a t (by rw [ha]; exact hws)
    rw [hr]
    exact isPrefixOf_false_head _ _ 'm' a rfl rfl (fun h => hne (h.trans ha))

theorem trimStr_cons_space (d : Str) : trimStr (' ' :: d) = trimStr d := by
  rw [trimStr, trimStr, List.dropWhile_cons, if_pos (by decide)]

theorem trimStr_natStr (n : Nat) : trimStr (natStr n) = natStr n := by
  apply trimStr_eq_self
  · intro c hc
    have hmem : c ∈ natStr n := List.mem_of_mem_head? (by rw [hc]; simp)
    obtain ⟨h1, h2⟩ := natStr_all_digits n c hmem
    exact ws_false_of_digit c h1 h2
  · intro c hc
    have hmem : c ∈ natStr n := List.mem_of_getLast?_eq_some hc
    obtain ⟨h1, h2⟩ := natStr_all_digits n c hmem
    exact ws_false_of_digit c h1 h2

/-- The scan recognizes the written `message_count` line exactly. -/
theorem fmStep_mc (fm : Frontmatter) (n : Nat)
    (hn : n < 18446744073709551616) :
    fmStep fm (("message_count: ").data ++ natStr n)
      = { fm with message_count := some n } := by
  have hline : ("message_count: ").data ++ natStr n
      = ("message_count:").data ++ (' ' :: natStr n) := by
    rw [show ("message_count: ").data
      = ("message_count:").data ++ [' '] from rfl]
    simp
  have htrim : trimStr (("message_count:").data ++ (' ' :: natStr n))
      = ("message_count:").data ++ (' ' :: natStr n) := by
    apply trimStr_eq_self
    · intro c hc
      have h3 : (some 'm' : Option Char) = some c := hc
      injection h3 with h2
      rw [← h2]
      decide
    · intro c hc
      obtain ⟨u, d, hud⟩ :=
        exists_concat_of_ne_nil (natStr n) (natStr_ne_nil n)
      rw [hud, show (' ' :: (u ++ [d])) = ((' ' :: u) ++ [d]) from rfl,
        getLast?_append_concat] at hc
      injection hc with h2
      have hdm : c ∈ natStr n := by
        rw [hud, ← h2]
        simp
      obtain ⟨h1, h3⟩ := natStr_all_digits n c hdm
      exact ws_false_of_digit c h1 h3
  have h1 : dropPre (("session_id:").data)
      (("message_count:").data ++ (' ' :: natStr n)) = none :=
    dropPre_false _ _ (isPrefixOf_false_head _ _ 's' 'm' rfl rfl (by decide))
  have h2 : dropPre (("provider:").data)
      (("message_count:").data ++ (' ' :: natStr n)) = none :=
    dropPre_false _ _ (isPrefixOf_false_head _ _ 'p' 'm' rfl rfl (by decide))
  have h3 : dropPre (("message_count:").data)
      (("message_count:").data ++ (' ' :: natStr n)) = some (' ' :: natStr n) :=
    dropPre_append _ _
  have h4 : parseUsize (trimStr (' ' :: natStr n)) = some n := by
    rw [trimStr_cons_space, trimStr_natStr]
    exact parseUsize_natStr n hn
  rw [hline]
  simp only [fmStep, htrim, h1, h2, h3, h4]

/-! ## C1 machinery: well-formed metadata lines and the full round trip -/

/-- The three properties of a written metadata line that let the block be
read back: no newline, no trailing carriage return, and no occurrence of
the closing delimiter. -/
def fmLineOk (l : Str) : Prop :=
  ('\n' ∈ l → False) ∧ (l.getLast? = some '\r' → False)
    ∧ ∀ i, (("---").data).isPrefixOf (l.drop i) = false

theorem fmLineOk_nil : fmLineOk [] :=
  ⟨by simp, fun h => Option.noConfusion h,
   fun i => by rw [List.drop_nil]; rfl⟩

theorem fmLineOk_label_value (label value : Str)
    (hlab : ∀ c ∈ label, c ≠ '\n' ∧ c ≠ '\r' ∧ c ≠ '-')
    (hvN : '\n' ∈ value → False) (hvR : '\r' ∈ value → False)
    (hvD : ∀ i, (("---").data).isPrefixOf (value.drop i) = false) :
    fmLineOk (label ++ value) := by
  refine ⟨?_, ?_, ?_⟩
  · intro hmem
    rw [List.mem_append] at hmem
    rcases hmem with h | h
    · exact (hlab _ h).1 rfl
    · exact hvN h
  · intro hlast
    have hmem : '\r' ∈ label ++ value := List.mem_of_getLast?_eq_some hlast
    rw [List.mem_append] at hmem
    rcases hmem with h | h
    · exact (hlab _ h).2.1 rfl
    · exact hvR h
  · exact line_no_occ label value (fun h => (hlab _ h).2.2 rfl) hvD

theorem digits_value_ok (n : Nat) :
    ('\n' ∈ natStr n → False) ∧ ('\r' ∈ natStr n → False)
      ∧ ∀ i, (("---").data).isPrefixOf ((natStr n).drop i) = false := by
  refine ⟨?_, ?_, ?_⟩
  · intro h
    obtain ⟨h1, h2⟩ := natStr_all_digits n _ h
    revert h1 h2
    decide
  · intro h
    obtain ⟨h1, h2⟩ := natStr_all_digits n _ h
    revert h1 h2
    decide
  · apply no_occ_of_no_dash
    intro h
    obtain ⟨h1, h2⟩ := natStr_all_digits n _ h
    revert h1 h2
    decide

/-- Every line of the written metadata block is well formed, given that
the three free-text fields carry no newline, no carriage return, and no
delimiter occurrence. -/
theorem fmLines_ok (s : ChatSession)
    (hpN : '\n' ∈ s.provider → False) (hpR : '\r' ∈ s.provider → False)
    (hpD : containsSub s.provider (("---").data) = false)
    (hsN : '\n' ∈ s.session_id → False) (hsR : '\r' ∈ s.session_id → False)
    (hsD : containsSub s.session_id (("---").data) = false)
    (hjN : '\n' ∈ s.project_path → False)
    (hjR : '\r' ∈ s.project_path → False)
    (hjD : containsSub s.project_path (("---").data) = false) :
    ∀ l ∈ ([] : Str) :: fmLines s, fmLineOk l := by
  intro l hl
  rw [List.mem_cons] at hl
  rcases hl with rfl | hl
  · exact fmLineOk_nil
  · rw [fmLines, List.mem_append] at hl
    rcases hl with hl | hl
    · simp only [List.mem_cons, List.mem_nil_iff, or_false] at hl
      rcases hl with rfl | rfl | rfl | rfl | rfl | rfl
      · exact fmLineOk_label_value _ _ (by decide) hpN hpR
          (no_occ_of_not_contains _ _ hpD)
      · exact fmLineOk_label_value _ _ (by decide) hsN hsR
          (no_occ_of_not_contains _ _ hsD)
      · exact fmLineOk_label_value _ _ (by decide) hjN hjR
          (no_occ_of_not_contains _ _ hjD)
      · obtain ⟨d1, d2, d3⟩ := digits_value_ok s.started_at
        exact fmLineOk_label_value _ _ (by decide) d1 d2 d3
      · obtain ⟨d1, d2, d3⟩ := digits_value_ok s.updated_at
        exact fmLineOk_label_value _ _ (by decide) d1 d2 d3
      · obtain ⟨d1, d2, d3⟩ := digits_value_ok s.messages.length
        exact fmLineOk_label_value _ _ (by decide) d1 d2 d3
    · by_cases htok : total_tokens s > 0
      · rw [if_pos htok] at hl
        simp only [List.mem_singleton] at hl
        subst hl
        obtain ⟨d1, d2, d3⟩ := digits_value_ok (total_tokens s)
        exact fmLineOk_label_value _ _ (by decide) d1 d2 d3
      · rw [if_neg htok] at hl
        simp at hl

/-- The shape of a successful `parse_frontmatter` run. -/
theorem parse_frontmatter_eq (content stripped : Str) (endIdx : Nat)
    (h1 : dropPre (("---").data) (takeBytesLossy 2048 content)
      = some stripped)
    (h2 : findSub (("---").data) stripped = some endIdx) :
    parse_frontmatter content
      = (linesOf (stripped.take endIdx)).foldl fmStep ⟨none, none, none⟩ := by
  simp only [parse_frontmatter, h1, h2]

/-- Parsing a block of well-formed lines between the two delimiters
recovers exactly the fold of the scan over those lines, whatever follows
the closing delimiter. -/
theorem parse_frontmatter_lines (l0 : Str) (ls0 : List Str) (u t : Str)
    (hok : ∀ l ∈ l0 :: ls0, fmLineOk l)
    (ht : takeBytesLossy (2048 - utf8Len (("---").data
        ++ ((((l0 :: ls0).map (fun l => l ++ ['\n'])).flatten)
          ++ ("---").data))) u = t)
    (hwin : utf8Len (("---").data
      ++ ((((l0 :: ls0).map (fun l => l ++ ['\n'])).flatten)
        ++ ("---").data)) ≤ 2048) :
    parse_frontmatter ((("---").data
      ++ ((((l0 :: ls0).map (fun l => l ++ ['\n'])).flatten)
        ++ ("---").data)) ++ u)
      = (l0 :: ls0).foldl fmStep ⟨none, none, none⟩ := by
  have hsplit : takeBytesLossy 2048 ((("---").data
      ++ ((((l0 :: ls0).map (fun l => l ++ ['\n'])).flatten)
        ++ ("---").data)) ++ u)
      = ("---").data
        ++ ((((l0 :: ls0).map (fun l => l ++ ['\n'])).flatten)
          ++ (("---").data ++ t)) := by
    rw [takeBytesLossy_append _ 2048 _ hwin, ht]
    simp [List.append_assoc]
  have h1 : dropPre (("---").data) (takeBytesLossy 2048 ((("---").data
      ++ ((((l0 :: ls0).map (fun l => l ++ ['\n'])).flatten)
        ++ ("---").data)) ++ u))
      = some ((((l0 :: ls0).map (fun l => l ++ ['\n'])).flatten)
          ++ (("---").data ++ t)) := by
    rw [hsplit]
    exact dropPre_append _ _
  have h2 : findSub (("---").data)
      ((((l0 :: ls0).map (fun l => l ++ ['\n'])).flatten)
        ++ (("---").data ++ t))
      = some (((l0 :: ls0).map (fun l => l ++ ['\n'])).flatten).length := by
    apply findSub_position
    intro i hi
    exact lines_no_occ (("---").data ++ t) (l0 :: ls0)
      (fun l hl => (hok l hl).2.2) i hi
  rw [parse_frontmatter_eq _ _ _ h1 h2]
  rw [List.take_left]
  rw [linesOf_flatten (l0 :: ls0) l0 ls0 rfl
    (fun l hl => (hok l hl).1) (fun l hl => (hok l hl).2.1)]

/-- C1 round trip: the metadata block written by `generate_markdown`, read
back by `parse_frontmatter`, recovers the source message count. -/
theorem parse_frontmatter_count (s : ChatSession) (rest : Str)
    (hwin : utf8Len (frontmatterText s) ≤ 2048)
    (hn : s.messages.length < 18446744073709551616)
    (hpN : '\n' ∈ s.provider → False) (hpR : '\r' ∈ s.provider → False)
    (hpD : containsSub s.provider (("---").data) = false)
    (hsN : '\n' ∈ s.session_id → False) (hsR : '\r' ∈ s.session_id → False)
    (hsD : containsSub s.session_id (("---").data) = false)
    (hjN : '\n' ∈ s.project_path → False)
    (hjR : '\r' ∈ s.project_path → False)
    (hjD : containsSub s.project_path (("---").data) = false) :
    (parse_frontmatter (frontmatterText s ++ rest)).message_count
      = some s.messages.length := by
  have hAll := fmLines_ok s hpN hpR hpD hsN hsR hsD hjN hjR hjD
  have hfm0 : frontmatterText s
      = (("---").data
        ++ (((([] : Str) :: fmLines s).map (fun l => l ++ ['\n'])).flatten
          ++ ("---").data)) ++ ("\n\n").data := by
    rw [frontmatterText,
      show ("---\n").data = ("---").data ++ ['\n'] from rfl,
      show ("---\n\n").data = ("---").data ++ ("\n\n").data from rfl]
    simp [List.append_assoc]
  have hwinP : utf8Len (("---").data
      ++ (((([] : Str) :: fmLines s).map (fun l => l ++ ['\n'])).flatten
        ++ ("---").data)) ≤ 2048 := by
    have h2 : utf8Len (frontmatterText s)
        = utf8Len (("---").data
          ++ (((([] : Str) :: fmLines s).map (fun l => l ++ ['\n'])).flatten
            ++ ("---").data)) + utf8Len (("\n\n").data) := by
      rw [hfm0, utf8Len_append]
    have h3 : utf8Len (("\n\n").data) = 2 := rfl
    omega
  rw [show frontmatterText s ++ rest
      = (("---").data
        ++ (((([] : Str) :: fmLines s).map (fun l => l ++ ['\n'])).flatten
          ++ ("---").data)) ++ (("\n\n").data ++ rest) by
    rw [hfm0]
    simp [List.append_assoc]]
  rw [parse_frontmatter_lines [] (fmLines s) (("\n\n").data ++ rest) _ hAll
    rfl hwinP]
  rw [show (([] : Str) :: fmLines s)
      = [([] : Str), ("provider: ").data ++ s.provider,
         ("session_id: ").data ++ s.session_id,
         ("project: ").data ++ s.project_path,
         ("started_at: ").data ++ rfc3339 s.started_at,
         ("updated_at: ").data ++ rfc3339 s.updated_at]
        ++ ((("message_count: ").data ++ natStr s.messages.length)
          :: (if total_tokens s > 0 then
               [("total_tokens: ").data ++ natStr (total_tokens s)]
             else [])) by
    rw [fmLines]
    simp]
  rw [List.foldl_append, List.foldl_cons, fmStep_mc _ _ hn]
  by_cases htok : total_tokens s > 0
  · rw [if_pos htok, List.foldl_cons, List.foldl_nil,
      fmStep_count_preserved _ _
        (not_mc_of_head (("total_tokens: ").data ++ natStr (total_tokens s))
          't' rfl (by decide) (by decide))]
  · rw [if_neg htok, List.foldl_nil]

/-- C1: on a session with at least one message and no recorded state,
`sync_session` without force first writes the full render and reports
`Synced n` with `n` the message count; an immediately repeated call on the
unchanged input reports `UpToDate` and leaves state and filesystem
untouched; the artifact is the written render and its recorded
`message_count` equals the source message count (each block written
exactly once). -/
theorem c1_sync_twice_uptodate (S : Synchronizer) (session : ChatSession)
    (st : ProjectState) (fs : Fs) (sessionPath : Str) (now now2 : Timestamp)
    (content : Str)
    (hne : session.messages ≠ [])
    (hstate : st.get_session session.session_id = none)
    (hgen : generate_markdown session = some content)
    (hwin : utf8Len (frontmatterText session) ≤ 2048)
    (hn : session.messages.length < 18446744073709551616)
    (hpN : '\n' ∈ session.provider → False)
    (hpR : '\r' ∈ session.provider → False)
    (hpD : containsSub session.provider (("---").data) = false)
    (hsN : '\n' ∈ session.session_id → False)
    (hsR : '\r' ∈ session.session_id → False)
    (hsD : containsSub session.session_id (("---").data) = false)
    (hjN : '\n' ∈ session.project_path → False)
    (hjR : '\r' ∈ session.project_path → False)
    (hjD : containsSub session.project_path (("---").data) = false) :
    sync_session S (Except.ok session) st fs ioOk sessionPath false now
      = some (Except.ok (SyncStatus.Synced session.messages.length),
          update_session S.providerName now st session.session_id sessionPath
            (new_markdown_path S session) session.messages.length,
          fs.write (new_markdown_path S session) content) ∧
    sync_session S (Except.ok session)
      (update_session S.providerName now st session.session_id sessionPath
        (new_markdown_path S session) session.messages.length)
      (fs.write (new_markdown_path S session) content) ioOk sessionPath false
      now2
      = some (Except.ok SyncStatus.UpToDate,
          update_session S.providerName now st session.session_id sessionPath
            (new_markdown_path S session) session.messages.length,
          fs.write (new_markdown_path S session) content) ∧
    (fs.write (new_markdown_path S session) content).lookup
      (new_markdown_path S session) = some content ∧
    (parse_frontmatter content).message_count
      = some session.messages.length := by
  refine ⟨?_, ?_, ?_, ?_⟩
  · rw [sync_session_ok_new S session st fs ioOk sessionPath false now hne
      hstate]
    rw [sync_session_decide, ite_self]
    rw [sync_session_go_create S session st fs sessionPath now _ hne, hgen]
    rfl
  · have hget2 : (update_session S.providerName now st session.session_id
        sessionPath (new_markdown_path S session)
        session.messages.length).get_session session.session_id
        = some ⟨session.session_id, S.providerName, sessionPath,
            new_markdown_path S session, session.messages.length, now⟩ := by
      rw [update_session]
      exact upsert_get_session st _
    rw [sync_session_ok_found S session _ _ ioOk sessionPath false now2 _ hne
      hget2]
    rw [sync_session_decide]
    rw [if_neg (by
      intro hor
      rcases hor with hf | hmiss
      · exact absurd hf (by simp)
      · rw [show (⟨session.session_id, S.providerName, sessionPath,
          new_markdown_path S session, session.messages.length, now⟩ :
          SessionState).markdown_path = new_markdown_path S session from rfl]
          at hmiss
        rw [Fs.write, existsFile_cons_self] at hmiss
        exact absurd hmiss.1 (by simp))]
    rw [show (⟨session.session_id, S.providerName, sessionPath,
        new_markdown_path S session, session.messages.length, now⟩ :
        SessionState).markdown_path = new_markdown_path S session from rfl,
      show (⟨session.session_id, S.providerName, sessionPath,
        new_markdown_path S session, session.messages.length, now⟩ :
        SessionState).synced_message_count = session.messages.length from rfl]
    rw [sync_session_go, if_pos (Nat.le_refl _)]
  · rw [Fs.write]
    exact lookup_cons_self _ _ _
  · cases ht : extract_title session.messages with
    | none =>
      rw [generate_markdown, ht] at hgen
      exact absurd hgen (by simp)
    | some title =>
      rw [generate_markdown, ht] at hgen
      have hc2 : frontmatterText session ++ ("# ").data ++ title
          ++ ("\n\n").data ++ renderedBlocks session.messages = content := by
        simpa using hgen
      rw [← hc2]
      rw [show frontmatterText session ++ ("# ").data ++ title
          ++ ("\n\n").data ++ renderedBlocks session.messages
          = frontmatterText session ++ ((("# ").data ++ (title
            ++ (("\n\n").data ++ renderedBlocks session.messages)))) by
        simp [List.append_assoc]]
      exact parse_frontmatter_count session _ hwin hn hpN hpR hpD hsN hsR hsD
        hjN hjR hjD

/-- C1 witness: a concrete one-message claude session synced twice from a
fresh state; the written metadata block reads back message count 1. -/
theorem c1_sync_twice_uptodate_witness :
    (parse_frontmatter ((generate_markdown ⟨("s1").data, ("claude").data,
        ("/p").data, 7, 7, [⟨("i").data, 7, MessageRole.User, ("Hi").data,
          ⟨none, none, [], []⟩⟩]⟩).getD [])).message_count = some 1 :=
  (c1_sync_twice_uptodate ⟨("claude").data, ("w").data⟩
    ⟨("s1").data, ("claude").data, ("/p").data, 7, 7,
      [⟨("i").data, 7, MessageRole.User, ("Hi").data, ⟨none, none, [], []⟩⟩]⟩
    ⟨[]⟩ [] (("src").data) 11 12
    ((generate_markdown ⟨("s1").data, ("claude").data, ("/p").data, 7, 7,
      [⟨("i").data, 7, MessageRole.User, ("Hi").data,
        ⟨none, none, [], []⟩⟩]⟩).getD [])
    (by decide) rfl (by rfl) (by decide) (by decide)
    (by decide) (by decide) (by decide)
    (by decide) (by decide) (by decide)
    (by decide) (by decide) (by decide)).2.2.2

/-- C2 witness: a concrete artifact recording message count 3 and a
five-message source session; the fresh store recovers synced count 3 for
the session. -/
theorem c2_resume_after_restart_witness :
    (restore_from_disk (("claude").data) 11
      [((("a.md").data),
        ("---\nsession_id: s1\nprovider: claude\nmessage_count: 3\n---\n").data)]).get_session
      (("s1").data)
      = some ⟨("s1").data, ("claude").data, [], ("a.md").data, 3, 11⟩ :=
  (c2_resume_after_restart ⟨("claude").data, ("w").data⟩
    ⟨("s1").data, ("claude").data, ("/p").data, 7, 7,
      List.replicate 5 ⟨("i").data, 7, MessageRole.User, ("Hi").data,
        ⟨none, none, [], []⟩⟩⟩
    (("a.md").data)
    (("---\nsession_id: s1\nprovider: claude\nmessage_count: 3\n---\n").data)
    (("s1").data) (("src").data) (some (("claude").data)) 11 12
    (by decide) (by decide) rfl (by decide)).1

end Waylog
